import Mathlib

/-!
# Sporestack Go client: transport core and resource clients

A shallow embedding of `sporestackGo.go`, `server.go` and `token.go`.

Conventions of the embedding.

* A Go `string` or `[]byte` is a Lean `String`; the conversions `string(body)` and
  `bytes.NewReader(body)` do not change the sequence and are the identity here. A nil
  `[]byte` is `none`.
* A Go `error` is `Option GoError`, `none` being `nil`. A pointer result `*T` is `Option T`.
* The Go standard library and `go-retryablehttp` are not part of the repository. What the
  client calls in them and cannot be computed from its arguments alone (the environment, URL
  parsing, the network, the JSON scanner and printer, float parsing, the Unicode tables) is
  the record `Env`, over which every statement quantifies.
* `encoding/json` is modelled on parsed JSON values: `json.Unmarshal` is the scanner of `Env`
  followed by the decoding of the value into the Go type, which follows the struct tags of the
  repository.
* The calls of `http.NewRequest` and of `hclient.Do` are recorded in a `World`, passed along
  explicitly.
-/

namespace Gosporestack

/-! ## Go values -/

/-- A Go error value, by the package that made it: `errorf` is a value of `fmt.Errorf` (the only
constructor of errors in the repository), `json` an error of `encoding/json`, `lib` an error of
`net/http`, `net/url`, `io` or the retrying transport. Each carries its `Error()` text. -/
inductive GoError where
  | errorf (text : String)
  | json (text : String)
  | lib (text : String)
  deriving DecidableEq, Repr

/-- The text of `err.Error()`. -/
def GoError.Error : GoError → String
  | .errorf t => t
  | .json t => t
  | .lib t => t

/-- The verb `%d` of `fmt` on an `int`: the decimal rendering, with a minus sign when negative. -/
def itoa (n : Int) : String := toString n

/-- The value of a decimal digit. -/
def digitValue (c : Char) : Option Nat :=
  if 48 ≤ c.toNat ∧ c.toNat ≤ 57 then some (c.toNat - 48) else none

/-- The digits read from left to right onto the value read so far. -/
def parseDigits : List Char → Nat → Option Nat
  | [], acc => some acc
  | c :: cs, acc =>
    match digitValue c with
    | some d => parseDigits cs (acc * 10 + d)
    | none => none

/-- A non-empty run of decimal digits. -/
def parseUint (cs : List Char) : Option Nat :=
  match cs with
  | [] => none
  | _ :: _ => parseDigits cs 0

/-- The range of a Go `int` and `int64`. -/
def IsInt64 (n : Int) : Prop := -9223372036854775808 ≤ n ∧ n ≤ 9223372036854775807

instance (n : Int) : Decidable (IsInt64 n) := by
  unfold IsInt64; infer_instance

/-- A run of decimal digits as an integer, negated when the sign was a minus. -/
def parseSigned (neg : Bool) (cs : List Char) : Option Int :=
  match parseUint cs with
  | some n => some (if neg then -(Int.ofNat n) else Int.ofNat n)
  | none => none

/-- The function `strconv.ParseInt(lit, 10, 64)`: an optional sign, decimal digits, and a value
in the range of `int64`. -/
def ParseInt (lit : String) : Option Int :=
  let r : Option Int :=
    match lit.data with
    | [] => none
    | c :: cs =>
      if c = '-' then parseSigned true cs
      else if c = '+' then parseSigned false cs
      else parseSigned false (c :: cs)
  match r with
  | some n => if IsInt64 n then some n else none
  | none => none

/-- A text `t` contains `s` when `s` occurs in it as a contiguous block. -/
def containsText (t s : String) : Prop := s.data <:+: t.data

instance (t s : String) : Decidable (containsText t s) := by
  unfold containsText; infer_instance

/-- A Go `float64`, by its bit pattern; the client stores such values and never computes with
them. -/
structure Float64 where
  bits : Nat
  deriving DecidableEq, Repr

/-- A parsed JSON value. A number keeps its literal, as the decoder of `encoding/json` does. -/
inductive Json where
  | null
  | bool (b : Bool)
  | num (lit : String)
  | str (s : String)
  | arr (xs : List Json)
  | obj (kvs : List (String × Json))

/-! ## net/http values -/

/-- An `http.Header`, as the list of its (key, value) entries in the order they were added. -/
abbrev HTTPHeader := List (String × String)

/-- The method `Header.Add`: appends the value to those of the key. Both keys used by the client
are already in canonical MIME form. -/
def HTTPHeader.Add (h : HTTPHeader) (key value : String) : HTTPHeader := h ++ [(key, value)]

/-- The method `Header.Values`: all values of a key, in order. -/
def HTTPHeader.Values (h : HTTPHeader) (key : String) : List String :=
  (h.filter (fun kv => kv.1 = key)).map (fun kv => kv.2)

/-- The fields of an `http.Request` that the client sets. `URL` is the address the request was
made for, `Body` its payload (`none` for a nil reader). -/
structure Request where
  Method : String
  URL : String
  Header : HTTPHeader
  Body : Option String
  deriving DecidableEq, Repr

/-- An `http.Response`: the status code, and what reading the body stream to its end gives. -/
structure Response where
  StatusCode : Int
  Body : Except GoError String

/-- The constant `http.StatusOK`. -/
def StatusOK : Int := 200

/-! ## Constants of the package -/

def version : String := "1.0.0"
def userAgent : String := "gosporestack/" ++ version
/-- One `time.Millisecond`, in nanoseconds (the unit of `time.Duration`). -/
def Millisecond : Int := 1000000
def maxRateLimit : Int := 900 * Millisecond
def retryLimit : Int := 3
def baseURI : String := "https://api.sporestack.com"
def baseURITor : String :=
  "https://api.spore64i5sofqlfz5gq2ju4msgzojjwifls7rok2cti624zyq3fcelad.onion"

/-! ## The retrying HTTP client -/

/-- The `Proxy` function of the `http.Transport`. -/
inductive ProxyFunc where
  | ProxyFromEnvironment
  | ProxyURL (u : String)
  deriving DecidableEq, Repr

/-- The type of `retryablehttp.ErrorHandler`. -/
abbrev ErrorHandlerFunc := Option Response → Option GoError → Int → Option Response × Option GoError

/-- The fields of `retryablehttp.Client` that `NewClient` sets. `Logger` is `none` for nil and
`some ()` for a logger; `Proxy` is the proxy function of `HTTPClient.Transport`, `none` when the
transport leaves it unset. Durations are in nanoseconds. -/
structure HClient where
  Logger : Option Unit
  ErrorHandler : Option ErrorHandlerFunc
  RetryMax : Int
  RetryWaitMin : Int
  RetryWaitMax : Int
  Proxy : Option ProxyFunc

/-- The client of `retryablehttp.NewClient()`: the default logger, retry waits of 1 s and 30 s,
4 retries, no error handler, the pooled default transport. -/
def retryablehttpNewClient : HClient :=
  { Logger := some (), ErrorHandler := none, RetryMax := 4,
    RetryWaitMin := 1000 * Millisecond, RetryWaitMax := 30000 * Millisecond,
    Proxy := some .ProxyFromEnvironment }

/-- What the client takes from outside the repository. -/
structure Env where
  /-- The function `os.Getenv`. -/
  getenv : String → String
  /-- The function `url.Parse`, here on the proxy address; the parsed URL is kept as text. -/
  urlParse : String → Except GoError String
  /-- The error of `http.NewRequest` for a method and an address, `none` when it accepts them (it
  rejects an invalid method and an address that does not parse; the body plays no part). -/
  httpNewRequestError : String → String → Option GoError
  /-- The error of `retryablehttp.FromRequest`, `none` when the request is wrapped. -/
  fromRequestError : Request → Option GoError
  /-- The method `Do` of the retrying client: the final response, or the error. -/
  hclientDo : HClient → Request → Except GoError Response
  /-- The scanner of `encoding/json`: the value a text denotes, or the message of the syntax
  error. -/
  jsonParse : String → Except String Json
  /-- The printer of `encoding/json`. -/
  jsonRender : Json → String
  /-- The function `strconv.ParseFloat(lit, 64)` on a number literal. -/
  parseFloat : String → Option Float64
  /-- The literal `encoding/json` prints for a `float64`, `none` for NaN and the infinities. -/
  formatFloat : Float64 → Option String
  /-- The table `strconv.IsPrint` above U+00FF. -/
  isPrintTable : Char → Bool
  /-- The text of a `json.UnmarshalTypeError`, from the description of the JSON value and the
  name of the Go type it does not fit. -/
  unmarshalTypeErrorText : String → String → String

/-- The calls made so far: `built` lists the calls of `http.NewRequest` (method, address, body),
`sent` the requests handed to `hclient.Do`. -/
structure World where
  built : List (String × String × Option String)
  sent : List Request
  deriving DecidableEq, Repr

/-- The world before any call. -/
def World.empty : World := { built := [], sent := [] }

/-! ## strings.TrimSpace and the verb %#v -/

/-- The predicate `unicode.IsSpace`. -/
def isSpace (c : Char) : Bool :=
  let n := c.toNat
  n = 0x09 || n = 0x0A || n = 0x0B || n = 0x0C || n = 0x0D || n = 0x20 || n = 0x85 || n = 0xA0
    || n = 0x1680 || (0x2000 ≤ n && n ≤ 0x200A) || n = 0x2028 || n = 0x2029 || n = 0x202F
    || n = 0x205F || n = 0x3000

/-- The function `strings.TrimSpace`: drops the leading and the trailing white space. -/
def TrimSpace (s : String) : String :=
  String.mk ((s.data.dropWhile isSpace).reverse.dropWhile isSpace).reverse

/-- The digit of `lowerhex` at a position below 16. -/
def lowerhex (n : Nat) : Char := "0123456789abcdef".data.getD n '0'

/-- The predicate `strconv.IsPrint`: computed up to U+00FF, from the table above it. -/
def IsPrint (E : Env) (c : Char) : Bool :=
  let n := c.toNat
  if n ≤ 0xFF then
    if 0x20 ≤ n && n < 0x7F then true
    else if 0xA1 ≤ n then n != 0xAD
    else false
  else E.isPrintTable c

/-- The function `appendEscapedRune` of `strconv`, for the double quote, not ASCII-only. -/
def appendEscapedRune (E : Env) (r : Char) : List Char :=
  let n := r.toNat
  if r = '"' || r = '\\' then ['\\', r]
  else if IsPrint E r then [r]
  else if n = 0x07 then ['\\', 'a']
  else if n = 0x08 then ['\\', 'b']
  else if n = 0x0C then ['\\', 'f']
  else if n = 0x0A then ['\\', 'n']
  else if n = 0x0D then ['\\', 'r']
  else if n = 0x09 then ['\\', 't']
  else if n = 0x0B then ['\\', 'v']
  else if n < 0x20 || n = 0x7F then ['\\', 'x', lowerhex (n / 16), lowerhex (n % 16)]
  else if n < 0x10000 then
    ['\\', 'u', lowerhex (n / 4096 % 16), lowerhex (n / 256 % 16), lowerhex (n / 16 % 16),
      lowerhex (n % 16)]
  else
    ['\\', 'U', lowerhex (n / 268435456 % 16), lowerhex (n / 16777216 % 16),
      lowerhex (n / 1048576 % 16), lowerhex (n / 65536 % 16), lowerhex (n / 4096 % 16),
      lowerhex (n / 256 % 16), lowerhex (n / 16 % 16), lowerhex (n % 16)]

/-- The function `strconv.Quote`, which is what the verb `%#v` prints for a string: the text
between double quotes, each rune escaped as Go source would have it. -/
def Quote (E : Env) (s : String) : String :=
  String.mk (['"'] ++ (s.data.map (appendEscapedRune E)).flatten ++ ['"'])

/-! ## sporestackGo.go -/

/-- The method `errorHandler`, installed as the `ErrorHandler` of the retrying client. It does
not read its receiver, and reads neither `err` nor `numTries`. -/
def errorHandler (E : Env) (resp : Option Response) (_err : Option GoError) (_numTries : Int) :
    Option Response × Option GoError :=
  match resp with
  | none =>
    (none, some (.errorf ("gave up after " ++ itoa (retryLimit + 1)
      ++ " attempts, last error unavailable (resp == nil)")))
  | some r =>
    match r.Body with
    | .error err =>
      (none, some (.errorf ("gave up after " ++ itoa (retryLimit + 1)
        ++ " attempts, last error unavailable (error reading response body: " ++ err.Error
        ++ ")")))
    | .ok buf =>
      (none, some (.errorf ("gave up after " ++ itoa (retryLimit + 1)
        ++ " attempts, last error: " ++ Quote E (TrimSpace buf))))

/-- The fields `token` and `hclient` of a `Client`: what a service reaches through its pointer
to the client. -/
structure ClientCore where
  token : String
  hclient : HClient

/-- The type `TokenInfoService`. -/
structure TokenInfoService where
  client : ClientCore

/-- The type `ServerService`. -/
structure ServerService where
  client : ClientCore

/-- The type `Client`. Its field `TokenInfo` points back to the client itself; the embedding
keeps, in the service, the token and transport it finds there. -/
structure Client where
  token : String
  hclient : HClient
  TokenInfo : TokenInfoService

/-- The token and transport of a client. -/
def Client.core (c : Client) : ClientCore := { token := c.token, hclient := c.hclient }

/-- The function `getTorProxy`. -/
def getTorProxy (E : Env) : String := E.getenv "TOR_PROXY"

/-- The function `NewClient`. It returns `none` where the Go code ends the process with
`log.Fatalf`: the proxy variable is set and does not parse. -/
def NewClient (E : Env) (token : String) : Option Client :=
  let proxyURL := getTorProxy E
  let proxyFunc : Option ProxyFunc :=
    if proxyURL ≠ "" then
      match E.urlParse proxyURL with
      | .error _ => none
      | .ok parsedProxyURL => some (.ProxyURL parsedProxyURL)
    else some .ProxyFromEnvironment
  match proxyFunc with
  | none => none
  | some pf =>
    let h : HClient :=
      { retryablehttpNewClient with
        Logger := none
        ErrorHandler := some (errorHandler E)
        RetryMax := retryLimit
        RetryWaitMin := Int.tdiv maxRateLimit 3
        RetryWaitMax := maxRateLimit
        Proxy := some pf }
    some { token := token, hclient := h, TokenInfo := { client := { token := token, hclient := h } } }

/-- The function `http.NewRequest`: fails as `Env` says, and otherwise gives a request with the
method (`GET` for the empty method), the address, an empty header and the body. The call is
recorded. -/
def httpNewRequest (E : Env) (method url : String) (body : Option String) (w : World) :
    Except GoError Request × World :=
  let w1 := { w with built := w.built ++ [(method, url, body)] }
  match E.httpNewRequestError method url with
  | some err => (.error err, w1)
  | none =>
    (.ok { Method := if method = "" then "GET" else method, URL := url, Header := [],
           Body := body }, w1)

/-- The method `Client.NewRequest`. -/
def NewRequest (E : Env) (c : ClientCore) (method path : String) (body : Option String)
    (w : World) : Except GoError Request × World :=
  let fullURI := baseURI ++ path
  let reqBody : Option String :=
    match body with
    | some b => some b
    | none => none
  match httpNewRequest E method fullURI reqBody w with
  | (.error err, w1) => (.error err, w1)
  | (.ok req, w1) =>
    let req1 := { req with Header := req.Header.Add "Authorization" ("Bearer: " ++ c.token) }
    let req2 := { req1 with Header := req1.Header.Add "User-Agent" userAgent }
    (.ok req2, w1)

/-- How a JSON value is stored into a Go value of type `α`: the value after the store, and the
first error met. -/
abbrev Decoder (α : Type) := Json → α → α × Option GoError

/-- The function `json.Unmarshal(body, &cell)`: a text that does not scan is a syntax error and
nothing is stored; otherwise the value is decoded into the cell. -/
def jsonUnmarshal {α : Type} (E : Env) (dec : Decoder α) (body : String) (cell : α) :
    α × Option GoError :=
  match E.jsonParse body with
  | .error msg => (cell, some (.json msg))
  | .ok v => dec v cell

/-- The method `Client.DoRequest`. The destination `data` is `none` for nil and otherwise points
to `cell`, decoded into as `dec` says; the result is the error, the cell afterwards and the
world. -/
def DoRequest {α : Type} (E : Env) (c : ClientCore) (r : Request) (data : Option (Decoder α))
    (cell : α) (w : World) : Option GoError × α × World :=
  match E.fromRequestError r with
  | some err => (some err, cell, w)
  | none =>
    let w1 := { w with sent := w.sent ++ [r] }
    match E.hclientDo c.hclient r with
    | .error err => (some err, cell, w1)
    | .ok res =>
      match res.Body with
      | .error err => (some err, cell, w1)
      | .ok body =>
        if res.StatusCode = StatusOK then
          match data with
          | some dec =>
            match jsonUnmarshal E dec body cell with
            | (cell1, some err) => (some err, cell1, w1)
            | (cell1, none) => (none, cell1, w1)
          | none => (none, cell, w1)
        else
          (some (.errorf ("error " ++ itoa res.StatusCode ++ " " ++ body)), cell, w1)

/-! ## encoding/json on the types of the repository -/

/-- The description of a JSON value in a `json.UnmarshalTypeError`. -/
def jsonKind : Json → String
  | .null => "null"
  | .bool _ => "bool"
  | .num _ => "number"
  | .str _ => "string"
  | .arr _ => "array"
  | .obj _ => "object"

/-- The error `json.UnmarshalTypeError` for a value description and a Go type. -/
def typeError (E : Env) (value goType : String) : GoError :=
  .json (E.unmarshalTypeErrorText value goType)

/-- The first error is the one kept (`saveError`). -/
def firstError (e1 e2 : Option GoError) : Option GoError :=
  match e1 with
  | some e => some e
  | none => e2

/-- Decoding into a Go `string`: `null` leaves it, a JSON string is stored, anything else is a
type error and leaves it. -/
def decodeString (E : Env) : Decoder String
  | .null, cur => (cur, none)
  | .str s, _ => (s, none)
  | v, cur => (cur, some (typeError E (jsonKind v) "string"))

/-- Decoding into a Go `bool`. -/
def decodeBool (E : Env) : Decoder Bool
  | .null, cur => (cur, none)
  | .bool b, _ => (b, none)
  | v, cur => (cur, some (typeError E (jsonKind v) "bool"))

/-- Decoding into a Go `int` or `int64`: the literal goes through `strconv.ParseInt`, which
fails on a fraction, an exponent and a value out of range. -/
def decodeInt (E : Env) (goType : String) : Decoder Int
  | .null, cur => (cur, none)
  | .num lit, cur =>
    match ParseInt lit with
    | some n => (n, none)
    | none => (cur, some (typeError E ("number " ++ lit) goType))
  | v, cur => (cur, some (typeError E (jsonKind v) goType))

/-- Decoding into a Go `float64`: the literal goes through `strconv.ParseFloat`. -/
def decodeFloat (E : Env) : Decoder Float64
  | .null, cur => (cur, none)
  | .num lit, cur =>
    match E.parseFloat lit with
    | some x => (x, none)
    | none => (cur, some (typeError E ("number " ++ lit) "float64"))
  | v, cur => (cur, some (typeError E (jsonKind v) "float64"))

/-- Decoding into a pointer `*T`: `null` sets it to nil; for any other value a nil pointer is
first pointed to a new zero `T` (`indirect`), and the value is decoded into what it points to. -/
def decodePtr {α : Type} (zero : α) (dec : Decoder α) : Decoder (Option α)
  | .null, _ => (none, none)
  | v, cur =>
    let r := dec v (cur.getD zero)
    (some r.1, r.2)

/-- The elements of a JSON array decoded in order, element `i` into the element `i` of the
slice when it has one and into a new zero element otherwise. -/
def decodeElems {α : Type} (zero : α) (dec : Decoder α) : List Json → List α → List α × Option GoError
  | [], _ => ([], none)
  | x :: xs, cur =>
    let r := dec x (cur.headD zero)
    let rs := decodeElems zero dec xs cur.tail
    (r.1 :: rs.1, firstError r.2 rs.2)

/-- A Go slice `[]T`: `none` is the nil slice. -/
abbrev Slice (α : Type) := Option (List α)

/-- Decoding into a slice `[]T` (`none` is the nil slice): `null` sets it to nil, an array sets
it to the decoded elements. -/
def decodeSlice {α : Type} (E : Env) (goType : String) (zero : α) (dec : Decoder α) :
    Decoder (Slice α)
  | .null, _ => (none, none)
  | .arr xs, cur =>
    let r := decodeElems zero dec xs (cur.getD [])
    (some r.1, r.2)
  | v, cur => (cur, some (typeError E (jsonKind v) goType))

/-- The fold of one rune in `foldName`: an ASCII letter goes to upper case, the long s U+017F to
`S` and the Kelvin sign U+212A to `K`; no other rune folds to an ASCII letter. -/
def foldRune (c : Char) : Char :=
  if 'a' ≤ c ∧ c ≤ 'z' then Char.ofNat (c.toNat - 32)
  else if c.toNat = 0x17F then 'S'
  else if c.toNat = 0x212A then 'K'
  else c

/-- The function `foldName`: two keys are equal under case folding when their folds are. -/
def foldName (s : String) : String := String.mk (s.data.map foldRune)

/-- The field of a struct that a JSON key names: the field whose name is the key, and failing
that the first field whose name equals the key under case folding. -/
def matchField (names : List String) (key : String) : Option String :=
  match names.find? (fun n => n = key) with
  | some n => some n
  | none => names.find? (fun n => foldName n = foldName key)

/-- The members of a JSON object stored in order into a struct: a key that names no field is
skipped, and a later member of the same field overwrites an earlier one. -/
def decodeMembers {α : Type} (names : List String) (setField : String → Decoder α) :
    List (String × Json) → α → α × Option GoError
  | [], cur => (cur, none)
  | (key, v) :: rest, cur =>
    match matchField names key with
    | none => decodeMembers names setField rest cur
    | some f =>
      let r := setField f v cur
      let rs := decodeMembers names setField rest r.1
      (rs.1, firstError r.2 rs.2)

/-- Decoding into a struct: `null` leaves it, an object stores its members, anything else is a
type error and leaves it. -/
def decodeStruct {α : Type} (E : Env) (goType : String) (names : List String)
    (setField : String → Decoder α) : Decoder α
  | .null, cur => (cur, none)
  | .obj kvs, cur => decodeMembers names setField kvs cur
  | v, cur => (cur, some (typeError E (jsonKind v) goType))

/-- Encoding of a Go `*string`: `null` for nil (no field of the repository has `omitempty`). -/
def encodePtrString : Option String → Json
  | none => .null
  | some s => .str s

/-- The function `json.Marshal`: the value of the Go data, where it has one, printed. -/
def jsonMarshal (E : Env) (v : Except GoError Json) : Except GoError String :=
  match v with
  | .error err => .error err
  | .ok j => .ok (E.jsonRender j)

/-! ## server.go: the data types -/

/-- The type `Flavor`. -/
structure Flavor where
  Slug : String
  Cores : Int
  Memory : Int
  Disk : Int
  Price : Int
  IPv4 : String
  IPv6 : String
  Bandwidth : Int
  BandwidthPerMonth : Float64
  ProviderSlug : String
  Provider : String
  deriving DecidableEq, Repr

/-- The zero value of `Flavor`. -/
def Flavor.zero : Flavor :=
  { Slug := "", Cores := 0, Memory := 0, Disk := 0, Price := 0, IPv4 := "", IPv6 := "",
    Bandwidth := 0, BandwidthPerMonth := { bits := 0 }, ProviderSlug := "", Provider := "" }

/-- The JSON names of the fields of `Flavor`, in order. -/
def Flavor.names : List String :=
  ["slug", "cores", "memory", "disk", "price", "ipv4", "ipv6", "bandwidth",
   "bandwidth_per_month", "provider_slug", "provider"]

/-- Storing a JSON value into the field of a `Flavor` with the given JSON name. -/
def Flavor.setField (E : Env) (f : String) : Decoder Flavor := fun v x =>
  if f = "slug" then
    let r := decodeString E v x.Slug; ({ x with Slug := r.1 }, r.2)
  else if f = "cores" then
    let r := decodeInt E "int" v x.Cores; ({ x with Cores := r.1 }, r.2)
  else if f = "memory" then
    let r := decodeInt E "int" v x.Memory; ({ x with Memory := r.1 }, r.2)
  else if f = "disk" then
    let r := decodeInt E "int" v x.Disk; ({ x with Disk := r.1 }, r.2)
  else if f = "price" then
    let r := decodeInt E "int" v x.Price; ({ x with Price := r.1 }, r.2)
  else if f = "ipv4" then
    let r := decodeString E v x.IPv4; ({ x with IPv4 := r.1 }, r.2)
  else if f = "ipv6" then
    let r := decodeString E v x.IPv6; ({ x with IPv6 := r.1 }, r.2)
  else if f = "bandwidth" then
    let r := decodeInt E "int" v x.Bandwidth; ({ x with Bandwidth := r.1 }, r.2)
  else if f = "bandwidth_per_month" then
    let r := decodeFloat E v x.BandwidthPerMonth; ({ x with BandwidthPerMonth := r.1 }, r.2)
  else if f = "provider_slug" then
    let r := decodeString E v x.ProviderSlug; ({ x with ProviderSlug := r.1 }, r.2)
  else if f = "provider" then
    let r := decodeString E v x.Provider; ({ x with Provider := r.1 }, r.2)
  else (x, none)

/-- Decoding into a `Flavor`. -/
def decodeFlavor (E : Env) : Decoder Flavor :=
  decodeStruct E "gosporestack.Flavor" Flavor.names (Flavor.setField E)

/-- Encoding of a `Flavor`; it fails when the `float64` field has no JSON literal. -/
def encodeFlavor (E : Env) (x : Flavor) : Except GoError Json :=
  match E.formatFloat x.BandwidthPerMonth with
  | none => .error (.json "json: unsupported value")
  | some lit =>
    .ok (.obj [("slug", .str x.Slug), ("cores", .num (itoa x.Cores)),
      ("memory", .num (itoa x.Memory)), ("disk", .num (itoa x.Disk)),
      ("price", .num (itoa x.Price)), ("ipv4", .str x.IPv4), ("ipv6", .str x.IPv6),
      ("bandwidth", .num (itoa x.Bandwidth)), ("bandwidth_per_month", .num lit),
      ("provider_slug", .str x.ProviderSlug), ("provider", .str x.Provider)])

/-- The type `Machine`. -/
structure Machine where
  MachineID : String
  CreatedAt : Int
  Expiration : Int
  Token : String
  Region : String
  IPv4 : String
  IPv6 : String
  DeletedAt : Int
  DeletedBy : Option String
  ForgottenAt : Option String
  SuspendedAt : Option String
  Provider : String
  Running : Bool
  DenySMTP : Bool
  FlavorSlug : String
  OperatingSystem : String
  Hostname : String
  Autorenew : Bool
  Flavor : Option Flavor
  deriving DecidableEq, Repr

/-- The zero value of `Machine`. -/
def Machine.zero : Machine :=
  { MachineID := "", CreatedAt := 0, Expiration := 0, Token := "", Region := "", IPv4 := "",
    IPv6 := "", DeletedAt := 0, DeletedBy := none, ForgottenAt := none, SuspendedAt := none,
    Provider := "", Running := false, DenySMTP := false, FlavorSlug := "",
    OperatingSystem := "", Hostname := "", Autorenew := false, Flavor := none }

/-- The JSON names of the fields of `Machine`, in order. -/
def Machine.names : List String :=
  ["machine_id", "created_at", "expiration", "token", "region", "ipv4", "ipv6", "deleted_at",
   "deleted_by", "forgotten_at", "suspended_at", "provider", "running", "deny_smtp",
   "flavor_slug", "operating_system", "hostname", "autorenew", "flavor"]

/-- Storing a JSON value into the field of a `Machine` with the given JSON name. -/
def Machine.setField (E : Env) (f : String) : Decoder Machine := fun v x =>
  if f = "machine_id" then
    let r := decodeString E v x.MachineID; ({ x with MachineID := r.1 }, r.2)
  else if f = "created_at" then
    let r := decodeInt E "int" v x.CreatedAt; ({ x with CreatedAt := r.1 }, r.2)
  else if f = "expiration" then
    let r := decodeInt E "int" v x.Expiration; ({ x with Expiration := r.1 }, r.2)
  else if f = "token" then
    let r := decodeString E v x.Token; ({ x with Token := r.1 }, r.2)
  else if f = "region" then
    let r := decodeString E v x.Region; ({ x with Region := r.1 }, r.2)
  else if f = "ipv4" then
    let r := decodeString E v x.IPv4; ({ x with IPv4 := r.1 }, r.2)
  else if f = "ipv6" then
    let r := decodeString E v x.IPv6; ({ x with IPv6 := r.1 }, r.2)
  else if f = "deleted_at" then
    let r := decodeInt E "int" v x.DeletedAt; ({ x with DeletedAt := r.1 }, r.2)
  else if f = "deleted_by" then
    let r := decodePtr "" (decodeString E) v x.DeletedBy; ({ x with DeletedBy := r.1 }, r.2)
  else if f = "forgotten_at" then
    let r := decodePtr "" (decodeString E) v x.ForgottenAt; ({ x with ForgottenAt := r.1 }, r.2)
  else if f = "suspended_at" then
    let r := decodePtr "" (decodeString E) v x.SuspendedAt; ({ x with SuspendedAt := r.1 }, r.2)
  else if f = "provider" then
    let r := decodeString E v x.Provider; ({ x with Provider := r.1 }, r.2)
  else if f = "running" then
    let r := decodeBool E v x.Running; ({ x with Running := r.1 }, r.2)
  else if f = "deny_smtp" then
    let r := decodeBool E v x.DenySMTP; ({ x with DenySMTP := r.1 }, r.2)
  else if f = "flavor_slug" then
    let r := decodeString E v x.FlavorSlug; ({ x with FlavorSlug := r.1 }, r.2)
  else if f = "operating_system" then
    let r := decodeString E v x.OperatingSystem; ({ x with OperatingSystem := r.1 }, r.2)
  else if f = "hostname" then
    let r := decodeString E v x.Hostname; ({ x with Hostname := r.1 }, r.2)
  else if f = "autorenew" then
    let r := decodeBool E v x.Autorenew; ({ x with Autorenew := r.1 }, r.2)
  else if f = "flavor" then
    let r := decodePtr Flavor.zero (decodeFlavor E) v x.Flavor; ({ x with Flavor := r.1 }, r.2)
  else (x, none)

/-- Decoding into a `Machine`. -/
def decodeMachine (E : Env) : Decoder Machine :=
  decodeStruct E "gosporestack.Machine" Machine.names (Machine.setField E)

/-- Decoding into a `[]Machine`. -/
def decodeMachines (E : Env) : Decoder (Slice Machine) :=
  decodeSlice E "[]gosporestack.Machine" Machine.zero (decodeMachine E)

/-- Encoding of a `Machine`: every field is written, a nil pointer as `null`. It fails when the
flavor does. -/
def encodeMachine (E : Env) (x : Machine) : Except GoError Json :=
  let flavor : Except GoError Json :=
    match x.Flavor with
    | none => .ok .null
    | some fl => encodeFlavor E fl
  match flavor with
  | .error err => .error err
  | .ok fj =>
    .ok (.obj [("machine_id", .str x.MachineID), ("created_at", .num (itoa x.CreatedAt)),
      ("expiration", .num (itoa x.Expiration)), ("token", .str x.Token),
      ("region", .str x.Region), ("ipv4", .str x.IPv4), ("ipv6", .str x.IPv6),
      ("deleted_at", .num (itoa x.DeletedAt)), ("deleted_by", encodePtrString x.DeletedBy),
      ("forgotten_at", encodePtrString x.ForgottenAt),
      ("suspended_at", encodePtrString x.SuspendedAt), ("provider", .str x.Provider),
      ("running", .bool x.Running), ("deny_smtp", .bool x.DenySMTP),
      ("flavor_slug", .str x.FlavorSlug), ("operating_system", .str x.OperatingSystem),
      ("hostname", .str x.Hostname), ("autorenew", .bool x.Autorenew), ("flavor", fj)])

/-- The type `ServerLaunchRequest`. -/
structure ServerLaunchRequest where
  Flavor : String
  SSHKey : String
  OperatingSystem : String
  Provider : String
  Autorenew : Bool
  Days : Int
  Region : String
  Hostname : String
  UserData : String
  deriving DecidableEq, Repr

/-- Encoding of a `*ServerLaunchRequest`: `null` for nil. -/
def encodeServerLaunchRequest : Option ServerLaunchRequest → Json
  | none => .null
  | some x =>
    .obj [("flavor", .str x.Flavor), ("ssh_key", .str x.SSHKey),
      ("operating_system", .str x.OperatingSystem), ("provider", .str x.Provider),
      ("autorenew", .bool x.Autorenew), ("days", .num (itoa x.Days)), ("region", .str x.Region),
      ("hostname", .str x.Hostname), ("user_data", .str x.UserData)]

/-- The type `ServerLaunchResponse`. -/
structure ServerLaunchResponse where
  MachineID : String
  deriving DecidableEq, Repr

/-- Storing a JSON value into the field of a `ServerLaunchResponse`. -/
def ServerLaunchResponse.setField (E : Env) (f : String) : Decoder ServerLaunchResponse :=
  fun v x =>
  if f = "machine_id" then
    let r := decodeString E v x.MachineID; ({ x with MachineID := r.1 }, r.2)
  else (x, none)

/-- Decoding into a `ServerLaunchResponse`. -/
def decodeServerLaunchResponse (E : Env) : Decoder ServerLaunchResponse :=
  decodeStruct E "gosporestack.ServerLaunchResponse" ["machine_id"]
    (ServerLaunchResponse.setField E)

/-- The type `QuoteResponse`. -/
structure QuoteResponse where
  Cents : Int
  Usd : String
  deriving DecidableEq, Repr

/-- Storing a JSON value into the field of a `QuoteResponse`. -/
def QuoteResponse.setField (E : Env) (f : String) : Decoder QuoteResponse := fun v x =>
  if f = "cents" then
    let r := decodeInt E "int" v x.Cents; ({ x with Cents := r.1 }, r.2)
  else if f = "usd" then
    let r := decodeString E v x.Usd; ({ x with Usd := r.1 }, r.2)
  else (x, none)

/-- Decoding into a `QuoteResponse`. -/
def decodeQuoteResponse (E : Env) : Decoder QuoteResponse :=
  decodeStruct E "gosporestack.QuoteResponse" ["cents", "usd"] (QuoteResponse.setField E)

/-- The type `TopUpRequest`. -/
structure TopUpRequest where
  Days : Int
  Token : Option String
  deriving DecidableEq, Repr

/-- Encoding of a `TopUpRequest`. -/
def encodeTopUpRequest (x : TopUpRequest) : Json :=
  .obj [("days", .num (itoa x.Days)), ("token", encodePtrString x.Token)]

/-- The type `UpdateRequest`. -/
structure UpdateRequest where
  HostName : String
  AutoRenew : Bool
  deriving DecidableEq, Repr

/-- Encoding of an `UpdateRequest`. -/
def encodeUpdateRequest (x : UpdateRequest) : Json :=
  .obj [("hostname", .str x.HostName), ("autorenew", .bool x.AutoRenew)]

/-! ## token.go: the data types -/

/-- The type `TokenInfo`. -/
structure TokenInfo where
  BalanceCents : Int
  BalanceUSD : String
  BurnRateCents : Int
  BurnRateUSD : String
  DaysRemaining : Int
  Servers : Int
  AutorenewServers : Int
  SuspendedServers : Int
  deriving DecidableEq, Repr

/-- The zero value of `TokenInfo`. -/
def TokenInfo.zero : TokenInfo :=
  { BalanceCents := 0, BalanceUSD := "", BurnRateCents := 0, BurnRateUSD := "",
    DaysRemaining := 0, Servers := 0, AutorenewServers := 0, SuspendedServers := 0 }

/-- The JSON names of the fields of `TokenInfo`, in order. -/
def TokenInfo.names : List String :=
  ["balance_cents", "balance_usd", "burn_rate_cents", "burn_rate_usd", "days_remaining",
   "servers", "autorenew_servers", "suspended_servers"]

/-- Storing a JSON value into the field of a `TokenInfo` with the given JSON name. -/
def TokenInfo.setField (E : Env) (f : String) : Decoder TokenInfo := fun v x =>
  if f = "balance_cents" then
    let r := decodeInt E "int" v x.BalanceCents; ({ x with BalanceCents := r.1 }, r.2)
  else if f = "balance_usd" then
    let r := decodeString E v x.BalanceUSD; ({ x with BalanceUSD := r.1 }, r.2)
  else if f = "burn_rate_cents" then
    let r := decodeInt E "int" v x.BurnRateCents; ({ x with BurnRateCents := r.1 }, r.2)
  else if f = "burn_rate_usd" then
    let r := decodeString E v x.BurnRateUSD; ({ x with BurnRateUSD := r.1 }, r.2)
  else if f = "days_remaining" then
    let r := decodeInt E "int" v x.DaysRemaining; ({ x with DaysRemaining := r.1 }, r.2)
  else if f = "servers" then
    let r := decodeInt E "int" v x.Servers; ({ x with Servers := r.1 }, r.2)
  else if f = "autorenew_servers" then
    let r := decodeInt E "int" v x.AutorenewServers; ({ x with AutorenewServers := r.1 }, r.2)
  else if f = "suspended_servers" then
    let r := decodeInt E "int" v x.SuspendedServers; ({ x with SuspendedServers := r.1 }, r.2)
  else (x, none)

/-- Decoding into a `TokenInfo`. -/
def decodeTokenInfo (E : Env) : Decoder TokenInfo :=
  decodeStruct E "gosporestack.TokenInfo" TokenInfo.names (TokenInfo.setField E)

/-- The type `Payment`. -/
structure Payment where
  PaymentURI : String
  Cryptocurrency : String
  Amount : Int
  FiatPerCoin : String
  Created : Int
  Expires : Int
  Paid : Int
  TxID : String
  AffiliateToken : Option String
  ID : String
  Expired : Bool
  deriving DecidableEq, Repr

/-- The zero value of `Payment`. -/
def Payment.zero : Payment :=
  { PaymentURI := "", Cryptocurrency := "", Amount := 0, FiatPerCoin := "", Created := 0,
    Expires := 0, Paid := 0, TxID := "", AffiliateToken := none, ID := "", Expired := false }

/-- The JSON names of the fields of `Payment`, in order. -/
def Payment.names : List String :=
  ["payment_uri", "cryptocurrency", "amount", "fiat_per_coin", "created", "expires", "paid",
   "txid", "affiliate_token", "id", "expired"]

/-- Storing a JSON value into the field of a `Payment` with the given JSON name. -/
def Payment.setField (E : Env) (f : String) : Decoder Payment := fun v x =>
  if f = "payment_uri" then
    let r := decodeString E v x.PaymentURI; ({ x with PaymentURI := r.1 }, r.2)
  else if f = "cryptocurrency" then
    let r := decodeString E v x.Cryptocurrency; ({ x with Cryptocurrency := r.1 }, r.2)
  else if f = "amount" then
    let r := decodeInt E "int" v x.Amount; ({ x with Amount := r.1 }, r.2)
  else if f = "fiat_per_coin" then
    let r := decodeString E v x.FiatPerCoin; ({ x with FiatPerCoin := r.1 }, r.2)
  else if f = "created" then
    let r := decodeInt E "int64" v x.Created; ({ x with Created := r.1 }, r.2)
  else if f = "expires" then
    let r := decodeInt E "int64" v x.Expires; ({ x with Expires := r.1 }, r.2)
  else if f = "paid" then
    let r := decodeInt E "int64" v x.Paid; ({ x with Paid := r.1 }, r.2)
  else if f = "txid" then
    let r := decodeString E v x.TxID; ({ x with TxID := r.1 }, r.2)
  else if f = "affiliate_token" then
    let r := decodePtr "" (decodeString E) v x.AffiliateToken
    ({ x with AffiliateToken := r.1 }, r.2)
  else if f = "id" then
    let r := decodeString E v x.ID; ({ x with ID := r.1 }, r.2)
  else if f = "expired" then
    let r := decodeBool E v x.Expired; ({ x with Expired := r.1 }, r.2)
  else (x, none)

/-- Decoding into a `Payment`. -/
def decodePayment (E : Env) : Decoder Payment :=
  decodeStruct E "gosporestack.Payment" Payment.names (Payment.setField E)

/-- Encoding of a `Payment`: every field is written, a nil pointer as `null`. -/
def encodePayment (x : Payment) : Json :=
  .obj [("payment_uri", .str x.PaymentURI), ("cryptocurrency", .str x.Cryptocurrency),
    ("amount", .num (itoa x.Amount)), ("fiat_per_coin", .str x.FiatPerCoin),
    ("created", .num (itoa x.Created)), ("expires", .num (itoa x.Expires)),
    ("paid", .num (itoa x.Paid)), ("txid", .str x.TxID),
    ("affiliate_token", encodePtrString x.AffiliateToken), ("id", .str x.ID),
    ("expired", .bool x.Expired)]

/-! ## server.go: the methods -/

/-- The method `ServerService.Launch`. -/
def ServerService.Launch (E : Env) (ss : ServerService) (reqq : Option ServerLaunchRequest)
    (w : World) : (Option ServerLaunchResponse × Option GoError) × World :=
  match jsonMarshal E (.ok (encodeServerLaunchRequest reqq)) with
  | .error err => ((none, some err), w)
  | .ok body =>
    match NewRequest E ss.client "POST" ("/token/" ++ ss.client.token ++ "/servers")
        (some body) w with
    | (.error err, w1) => ((none, some err), w1)
    | (.ok req, w1) =>
      let s : ServerLaunchResponse := { MachineID := "" }
      match DoRequest E ss.client req (some (decodeServerLaunchResponse E)) s w1 with
      | (some err, _, w2) => ((none, some err), w2)
      | (none, s1, w2) => ((some s1, none), w2)

/-- The method `ServerService.List`. -/
def ServerService.List (E : Env) (ss : ServerService) (w : World) :
    (Slice Machine × Option GoError) × World :=
  match NewRequest E ss.client "GET" ("/token" ++ ss.client.token ++ "/servers") none w with
  | (.error err, w1) => ((none, some err), w1)
  | (.ok req, w1) =>
    let s : Slice Machine := none
    match DoRequest E ss.client req (some (decodeMachines E)) s w1 with
    | (some err, _, w2) => ((none, some err), w2)
    | (none, s1, w2) => ((s1, none), w2)

/-- The method `ServerService.Quote`. The body of its `if err != nil` is empty: whatever
`DoRequest` returns, the quote is returned with a nil error. -/
def ServerService.Quote (E : Env) (ss : ServerService) (days flavor provider : String)
    (w : World) : (Option QuoteResponse × Option GoError) × World :=
  match NewRequest E ss.client "GET"
      ("/server/quote?" ++ "days=" ++ days ++ "&flavor_slug=" ++ flavor ++ "&provider="
        ++ provider) none w with
  | (.error err, w1) => ((none, some err), w1)
  | (.ok req, w1) =>
    let q : QuoteResponse := { Cents := 0, Usd := "" }
    match DoRequest E ss.client req (some (decodeQuoteResponse E)) q w1 with
    | (some _, q1, w2) => ((some q1, none), w2)
    | (none, q1, w2) => ((some q1, none), w2)

/-- The method `ServerService.TopUp`. -/
def ServerService.TopUp (E : Env) (ss : ServerService) (machineId : String) (days : Int)
    (w : World) : (String × Option GoError) × World :=
  let topUpRequest : TopUpRequest := { Days := days, Token := some ss.client.token }
  match jsonMarshal E (.ok (encodeTopUpRequest topUpRequest)) with
  | .error err => (("", some err), w)
  | .ok body =>
    match NewRequest E ss.client "POST" ("/server/" ++ machineId ++ "/topup") (some body) w with
    | (.error err, w1) => (("", some err), w1)
    | (.ok req, w1) =>
      let s := ""
      match DoRequest E ss.client req (some (decodeString E)) s w1 with
      | (some err, _, w2) => (("", some err), w2)
      | (none, s1, w2) => ((s1, none), w2)

/-- The method `ServerService.Update`. -/
def ServerService.Update (E : Env) (ss : ServerService) (machineId hostname : String)
    (autoRenew : Bool) (w : World) : (String × Option GoError) × World :=
  let updateRequest : UpdateRequest := { HostName := hostname, AutoRenew := autoRenew }
  match jsonMarshal E (.ok (encodeUpdateRequest updateRequest)) with
  | .error err => (("", some err), w)
  | .ok body =>
    match NewRequest E ss.client "PATCH" ("/server/" ++ machineId) (some body) w with
    | (.error err, w1) => (("", some err), w1)
    | (.ok req, w1) =>
      let s := ""
      match DoRequest E ss.client req (some (decodeString E)) s w1 with
      | (some err, _, w2) => (("", some err), w2)
      | (none, s1, w2) => ((s1, none), w2)

/-- The method `ServerService.Delete`. -/
def ServerService.Delete (E : Env) (ss : ServerService) (machineId : String) (w : World) :
    (String × Option GoError) × World :=
  match NewRequest E ss.client "DELETE" ("/server/" ++ machineId) none w with
  | (.error err, w1) => (("", some err), w1)
  | (.ok req, w1) =>
    let s := ""
    match DoRequest E ss.client req (some (decodeString E)) s w1 with
    | (some err, _, w2) => (("", some err), w2)
    | (none, s1, w2) => ((s1, none), w2)

/-- The method `ServerService.Forget`. -/
def ServerService.Forget (E : Env) (ss : ServerService) (machineId : String) (w : World) :
    (String × Option GoError) × World :=
  match NewRequest E ss.client "POST" ("/server/" ++ machineId ++ "/forget") none w with
  | (.error err, w1) => (("", some err), w1)
  | (.ok req, w1) =>
    let s := ""
    match DoRequest E ss.client req (some (decodeString E)) s w1 with
    | (some err, _, w2) => (("", some err), w2)
    | (none, s1, w2) => ((s1, none), w2)

/-- The method `ServerService.Rebuild`. -/
def ServerService.Rebuild (E : Env) (ss : ServerService) (machineId : String) (w : World) :
    (String × Option GoError) × World :=
  match NewRequest E ss.client "POST" ("/server/" ++ machineId ++ "/rebuild") none w with
  | (.error err, w1) => (("", some err), w1)
  | (.ok req, w1) =>
    let s := ""
    match DoRequest E ss.client req (some (decodeString E)) s w1 with
    | (some err, _, w2) => (("", some err), w2)
    | (none, s1, w2) => ((s1, none), w2)

/-- The method `ServerService.Stop`. -/
def ServerService.Stop (E : Env) (ss : ServerService) (machineId : String) (w : World) :
    (String × Option GoError) × World :=
  match NewRequest E ss.client "POST" ("/server/" ++ machineId ++ "/stop") none w with
  | (.error err, w1) => (("", some err), w1)
  | (.ok req, w1) =>
    let s := ""
    match DoRequest E ss.client req (some (decodeString E)) s w1 with
    | (some err, _, w2) => (("", some err), w2)
    | (none, s1, w2) => ((s1, none), w2)

/-! ## token.go: the methods -/

/-- The method `TokenInfoService.Get`. -/
def TokenInfoService.Get (E : Env) (s : TokenInfoService) (w : World) :
    (Option TokenInfo × Option GoError) × World :=
  match NewRequest E s.client "GET" ("/token/" ++ s.client.token ++ "/info") none w with
  | (.error err, w1) => ((none, some err), w1)
  | (.ok req, w1) =>
    let tokenInfo : TokenInfo := TokenInfo.zero
    match DoRequest E s.client req (some (decodeTokenInfo E)) tokenInfo w1 with
    | (some err, _, w2) => ((none, some err), w2)
    | (none, tokenInfo1, w2) => ((some tokenInfo1, none), w2)

/-- The method `TokenInfoService.GetInvoices`. -/
def TokenInfoService.GetInvoices (E : Env) (s : TokenInfoService) (w : World) :
    (Option Payment × Option GoError) × World :=
  match NewRequest E s.client "GET" ("/token/" ++ s.client.token ++ "/invoices") none w with
  | (.error err, w1) => ((none, some err), w1)
  | (.ok req, w1) =>
    let invoices : Payment := Payment.zero
    match DoRequest E s.client req (some (decodePayment E)) invoices w1 with
    | (some err, _, w2) => ((none, some err), w2)
    | (none, invoices1, w2) => ((some invoices1, none), w2)

/-! ## A concrete environment -/

/-- An environment for evaluating the client: no proxy variable, every URL and request accepted,
a transport that answers every request with status 200 and an empty body, a scanner that knows
no text, and the float zero, of literal `0`, as the only float with a literal. -/
def Env.plain : Env :=
  { getenv := fun _ => ""
    urlParse := fun u => .ok u
    httpNewRequestError := fun _ _ => none
    fromRequestError := fun _ => none
    hclientDo := fun _ _ => .ok { StatusCode := 200, Body := .ok "" }
    jsonParse := fun _ => .error "unexpected end of JSON input"
    jsonRender := fun _ => ""
    parseFloat := fun lit => if lit = "0" then some { bits := 0 } else none
    formatFloat := fun f => if f.bits = 0 then some "0" else none
    isPrintTable := fun _ => false
    unmarshalTypeErrorText := fun value goType =>
      "json: cannot unmarshal " ++ value ++ " into Go value of type " ++ goType }

/-- The environment `Env.plain` with a transport that answers every request with the given
status and body, and the given scanner. -/
def Env.answering (status : Int) (body : String) (scan : String → Except String Json) : Env :=
  { Env.plain with
    hclientDo := fun _ _ => .ok { StatusCode := status, Body := .ok body }
    jsonParse := scan }

/-- A client with a token, as `NewClient` builds it in `Env.plain`. -/
def ClientCore.test : ClientCore :=
  { token := "tok",
    hclient :=
      { retryablehttpNewClient with
        Logger := none
        ErrorHandler := some (errorHandler Env.plain)
        RetryMax := retryLimit
        RetryWaitMin := Int.tdiv maxRateLimit 3
        RetryWaitMax := maxRateLimit
        Proxy := some .ProxyFromEnvironment } }

/-- The client `NewClient` returns for the token `tok` in `Env.plain`. -/
def Client.test : Client :=
  { token := "tok", hclient := ClientCore.test.hclient, TokenInfo := { client := ClientCore.test } }

/-- The request `NewRequest` builds on `Client.test` for a GET of the token information. -/
def Request.test : Request :=
  { Method := "GET", URL := "https://api.sporestack.com/token/tok/info",
    Header := [("Authorization", "Bearer: tok"), ("User-Agent", "gosporestack/1.0.0")],
    Body := none }

/-! ## The resource methods, as one family -/

/-- A call of a resource method, with its arguments. -/
inductive Call where
  | Launch (reqq : Option ServerLaunchRequest)
  | List
  | Quote (days flavor provider : String)
  | TopUp (machineId : String) (days : Int)
  | Update (machineId hostname : String) (autoRenew : Bool)
  | Delete (machineId : String)
  | Forget (machineId : String)
  | Rebuild (machineId : String)
  | Stop (machineId : String)
  | TokenInfoGet
  | TokenInfoGetInvoices
  deriving DecidableEq, Repr

/-- The first result of a resource method. -/
inductive Result where
  | launch (r : Option ServerLaunchResponse)
  | machines (r : Slice Machine)
  | quote (r : Option QuoteResponse)
  | text (s : String)
  | tokenInfo (r : Option TokenInfo)
  | payment (r : Option Payment)
  deriving DecidableEq, Repr

/-- Running a call on a client: the method of `server.go` or `token.go` it names. -/
def Call.run (E : Env) (c : ClientCore) (call : Call) (w : World) :
    (Result × Option GoError) × World :=
  match call with
  | .Launch reqq =>
    let r := ServerService.Launch E { client := c } reqq w; ((.launch r.1.1, r.1.2), r.2)
  | .List =>
    let r := ServerService.List E { client := c } w; ((.machines r.1.1, r.1.2), r.2)
  | .Quote days flavor provider =>
    let r := ServerService.Quote E { client := c } days flavor provider w
    ((.quote r.1.1, r.1.2), r.2)
  | .TopUp machineId days =>
    let r := ServerService.TopUp E { client := c } machineId days w; ((.text r.1.1, r.1.2), r.2)
  | .Update machineId hostname autoRenew =>
    let r := ServerService.Update E { client := c } machineId hostname autoRenew w
    ((.text r.1.1, r.1.2), r.2)
  | .Delete machineId =>
    let r := ServerService.Delete E { client := c } machineId w; ((.text r.1.1, r.1.2), r.2)
  | .Forget machineId =>
    let r := ServerService.Forget E { client := c } machineId w; ((.text r.1.1, r.1.2), r.2)
  | .Rebuild machineId =>
    let r := ServerService.Rebuild E { client := c } machineId w; ((.text r.1.1, r.1.2), r.2)
  | .Stop machineId =>
    let r := ServerService.Stop E { client := c } machineId w; ((.text r.1.1, r.1.2), r.2)
  | .TokenInfoGet =>
    let r := TokenInfoService.Get E { client := c } w; ((.tokenInfo r.1.1, r.1.2), r.2)
  | .TokenInfoGetInvoices =>
    let r := TokenInfoService.GetInvoices E { client := c } w; ((.payment r.1.1, r.1.2), r.2)

/-- The endpoint table of the specification: the HTTP method and the path of each call, for the
token `t`. -/
def Call.endpoint (t : String) : Call → String × String
  | .Launch _ => ("POST", "/token/" ++ t ++ "/servers")
  | .List => ("GET", "/token" ++ t ++ "/servers")
  | .Quote days flavor provider =>
    ("GET", "/server/quote?days=" ++ days ++ "&flavor_slug=" ++ flavor ++ "&provider=" ++ provider)
  | .TopUp machineId _ => ("POST", "/server/" ++ machineId ++ "/topup")
  | .Update machineId _ _ => ("PATCH", "/server/" ++ machineId)
  | .Delete machineId => ("DELETE", "/server/" ++ machineId)
  | .Forget machineId => ("POST", "/server/" ++ machineId ++ "/forget")
  | .Rebuild machineId => ("POST", "/server/" ++ machineId ++ "/rebuild")
  | .Stop machineId => ("POST", "/server/" ++ machineId ++ "/stop")
  | .TokenInfoGet => ("GET", "/token/" ++ t ++ "/info")
  | .TokenInfoGetInvoices => ("GET", "/token/" ++ t ++ "/invoices")

/-- The payload of each call: the marshalled request of `Launch`, `TopUp` and `Update`, nothing
for the others. -/
def Call.body (E : Env) (t : String) : Call → Option String
  | .Launch reqq => some (E.jsonRender (encodeServerLaunchRequest reqq))
  | .TopUp _ days => some (E.jsonRender (encodeTopUpRequest { Days := days, Token := some t }))
  | .Update _ hostname autoRenew =>
    some (E.jsonRender (encodeUpdateRequest { HostName := hostname, AutoRenew := autoRenew }))
  | _ => none

/-- The request of a call: the method and address of the endpoint table, the two headers, the
payload. -/
def Call.request (E : Env) (t : String) (call : Call) : Request :=
  { Method := (call.endpoint t).1, URL := baseURI ++ (call.endpoint t).2,
    Header := [("Authorization", "Bearer: " ++ t), ("User-Agent", userAgent)],
    Body := call.body E t }

/-- The nil result of a call: a nil pointer or slice, the empty string for the methods that
return a string. -/
def Call.nilResult : Call → Result
  | .Launch _ => .launch none
  | .List => .machines none
  | .Quote _ _ _ => .quote none
  | .TokenInfoGet => .tokenInfo none
  | .TokenInfoGetInvoices => .payment none
  | _ => .text ""

/-- The body `b` decoded as the result type of a call, into a new zero value: the result, and the
error of the decoding. -/
def Call.decoded (E : Env) (call : Call) (b : String) : Result × Option GoError :=
  match call with
  | .Launch _ =>
    let r := jsonUnmarshal E (decodeServerLaunchResponse E) b { MachineID := "" }
    (.launch (some r.1), r.2)
  | .List =>
    let r := jsonUnmarshal E (decodeMachines E) b none
    (.machines r.1, r.2)
  | .Quote _ _ _ =>
    let r := jsonUnmarshal E (decodeQuoteResponse E) b { Cents := 0, Usd := "" }
    (.quote (some r.1), r.2)
  | .TokenInfoGet =>
    let r := jsonUnmarshal E (decodeTokenInfo E) b TokenInfo.zero
    (.tokenInfo (some r.1), r.2)
  | .TokenInfoGetInvoices =>
    let r := jsonUnmarshal E (decodePayment E) b Payment.zero
    (.payment (some r.1), r.2)
  | _ =>
    let r := jsonUnmarshal E (decodeString E) b ""
    (.text r.1, r.2)

/-- Request construction succeeds for the call and the final response of the transport to its
request has status `s` and body `b`. -/
def FinalResponse (E : Env) (c : ClientCore) (call : Call) (s : Int) (b : String) : Prop :=
  E.httpNewRequestError (call.endpoint c.token).1 (baseURI ++ (call.endpoint c.token).2) = none
    ∧ E.fromRequestError (call.request E c.token) = none
    ∧ E.hclientDo c.hclient (call.request E c.token) = .ok { StatusCode := s, Body := .ok b }

/-- From world `w` to world `v`, `http.NewRequest` was called once, for the method and for the
base address followed by the path, and at most the request so made, with that method and
address, was handed to the transport. -/
def BuildsOne (w v : World) (method path : String) : Prop :=
  (∃ body, v.built = w.built ++ [(method, "https://api.sporestack.com" ++ path, body)])
    ∧ (v.sent = w.sent
        ∨ ∃ req : Request, req.Method = method ∧ req.URL = "https://api.sporestack.com" ++ path
            ∧ v.sent = w.sent ++ [req])

/-- The shape the resource methods share: build the request, send it with a destination, and
return the destination, or the nil result with the error. -/
def roundTrip {α ρ : Type} (E : Env) (c : ClientCore) (method path : String)
    (body : Option String) (dec : Decoder α) (zero : α) (ok : α → ρ) (nil : ρ) (w : World) :
    (ρ × Option GoError) × World :=
  match NewRequest E c method path body w with
  | (.error err, w1) => ((nil, some err), w1)
  | (.ok req, w1) =>
    match DoRequest E c req (some dec) zero w1 with
    | (some err, _, w2) => ((nil, some err), w2)
    | (none, x, w2) => ((ok x, none), w2)

/-! ## Encoding of the results, and well-formed values -/

/-- Encoding of a `ServerLaunchResponse`. -/
def encodeServerLaunchResponse (x : ServerLaunchResponse) : Json :=
  .obj [("machine_id", .str x.MachineID)]

/-- Encoding of a `QuoteResponse`. -/
def encodeQuoteResponse (x : QuoteResponse) : Json :=
  .obj [("cents", .num (itoa x.Cents)), ("usd", .str x.Usd)]

/-- Encoding of a `TokenInfo`. -/
def encodeTokenInfo (x : TokenInfo) : Json :=
  .obj [("balance_cents", .num (itoa x.BalanceCents)), ("balance_usd", .str x.BalanceUSD),
    ("burn_rate_cents", .num (itoa x.BurnRateCents)), ("burn_rate_usd", .str x.BurnRateUSD),
    ("days_remaining", .num (itoa x.DaysRemaining)), ("servers", .num (itoa x.Servers)),
    ("autorenew_servers", .num (itoa x.AutorenewServers)),
    ("suspended_servers", .num (itoa x.SuspendedServers))]

/-- Encoding of the elements of a `[]Machine`, in order; it fails when one of them does. -/
def encodeElems (E : Env) : List Machine → Except GoError (List Json)
  | [] => .ok []
  | m :: ms =>
    match encodeMachine E m with
    | .error err => .error err
    | .ok j =>
      match encodeElems E ms with
      | .error err => .error err
      | .ok js => .ok (j :: js)

/-- Encoding of a `[]Machine`: `null` for the nil slice, an array otherwise. -/
def encodeMachines (E : Env) : Slice Machine → Except GoError Json
  | none => .ok .null
  | some ms =>
    match encodeElems E ms with
    | .error err => .error err
    | .ok js => .ok (.arr js)

/-- Encoding of a result: what `json.Marshal` gives for the value, `null` for a nil pointer. -/
def encodeResult (E : Env) : Result → Except GoError Json
  | .launch none => .ok .null
  | .launch (some x) => .ok (encodeServerLaunchResponse x)
  | .machines ms => encodeMachines E ms
  | .quote none => .ok .null
  | .quote (some x) => .ok (encodeQuoteResponse x)
  | .text s => .ok (.str s)
  | .tokenInfo none => .ok .null
  | .tokenInfo (some x) => .ok (encodeTokenInfo x)
  | .payment none => .ok .null
  | .payment (some x) => .ok (encodePayment x)

/-- The integers of a `Flavor` are Go integers. -/
def Flavor.Valid (x : Flavor) : Prop :=
  IsInt64 x.Cores ∧ IsInt64 x.Memory ∧ IsInt64 x.Disk ∧ IsInt64 x.Price ∧ IsInt64 x.Bandwidth

/-- The integers of a `Machine`, and of its flavor when it has one, are Go integers. -/
def Machine.Valid (x : Machine) : Prop :=
  IsInt64 x.CreatedAt ∧ IsInt64 x.Expiration ∧ IsInt64 x.DeletedAt
    ∧ ∀ fl, x.Flavor = some fl → fl.Valid

/-- The integer of a `QuoteResponse` is a Go integer. -/
def QuoteResponse.Valid (x : QuoteResponse) : Prop := IsInt64 x.Cents

/-- The integers of a `TokenInfo` are Go integers. -/
def TokenInfo.Valid (x : TokenInfo) : Prop :=
  IsInt64 x.BalanceCents ∧ IsInt64 x.BurnRateCents ∧ IsInt64 x.DaysRemaining
    ∧ IsInt64 x.Servers ∧ IsInt64 x.AutorenewServers ∧ IsInt64 x.SuspendedServers

/-- The integers of a `Payment` are Go integers. -/
def Payment.Valid (x : Payment) : Prop :=
  IsInt64 x.Amount ∧ IsInt64 x.Created ∧ IsInt64 x.Expires ∧ IsInt64 x.Paid

/-- Every integer in a result is a Go integer. -/
def Result.Valid : Result → Prop
  | .machines (some ms) => ∀ m ∈ ms, m.Valid
  | .quote (some x) => x.Valid
  | .tokenInfo (some x) => x.Valid
  | .payment (some x) => x.Valid
  | _ => True

/-- The result is a value of the result type of the call: the pointer a method returns with a
nil error is never nil, the slice of `List` may be. -/
def Call.Returns : Call → Result → Prop
  | .Launch _, .launch (some _) => True
  | .List, .machines _ => True
  | .Quote _ _ _, .quote (some _) => True
  | .TopUp _ _, .text _ => True
  | .Update _ _ _, .text _ => True
  | .Delete _, .text _ => True
  | .Forget _, .text _ => True
  | .Rebuild _, .text _ => True
  | .Stop _, .text _ => True
  | .TokenInfoGet, .tokenInfo (some _) => True
  | .TokenInfoGetInvoices, .payment (some _) => True
  | _, _ => False

/-- The float parser of the environment reads back every literal its float printer writes, as
`strconv.ParseFloat` does with the literals of `encoding/json`. -/
def FloatsReadBack (E : Env) : Prop :=
  ∀ f lit, E.formatFloat f = some lit → E.parseFloat lit = some f

/-- The body of the mocked launch response of the specification. -/
def launchBody : String := "\x7b\"machine_id\": \"abcd1234abcd1234abcd1234abcd1234\"\x7d"

/-- A scanner that knows the mocked launch response. -/
def launchScan (text : String) : Except String Json :=
  if text = launchBody then .ok (.obj [("machine_id", .str "abcd1234abcd1234abcd1234abcd1234")])
  else .error "invalid character"

/-- The body of a mocked token information response. -/
def tokenInfoBody : String :=
  "\x7b\"balance_cents\": 1250, \"balance_usd\": \"$12.50\", \"burn_rate_cents\": 40, "
    ++ "\"burn_rate_usd\": \"$0.40\", \"days_remaining\": 31, \"servers\": 2, "
    ++ "\"autorenew_servers\": 1, \"suspended_servers\": 0\x7d"

/-- The token information the mocked response encodes. -/
def TokenInfo.sample : TokenInfo :=
  { BalanceCents := 1250, BalanceUSD := "$12.50", BurnRateCents := 40, BurnRateUSD := "$0.40",
    DaysRemaining := 31, Servers := 2, AutorenewServers := 1, SuspendedServers := 0 }

/-- A scanner that knows the mocked token information response. -/
def tokenInfoScan (text : String) : Except String Json :=
  if text = tokenInfoBody then
    .ok (.obj [("balance_cents", .num "1250"), ("balance_usd", .str "$12.50"),
      ("burn_rate_cents", .num "40"), ("burn_rate_usd", .str "$0.40"),
      ("days_remaining", .num "31"), ("servers", .num "2"), ("autorenew_servers", .num "1"),
      ("suspended_servers", .num "0")])
  else .error "invalid character"

/-- A deleted machine that was never forgotten, with an empty suspension time and a flavor. -/
def Machine.sample : Machine :=
  { Machine.zero with
    MachineID := "m1", CreatedAt := 1704412800, DeletedAt := 1704499200,
    DeletedBy := some "user-42", ForgottenAt := none, SuspendedAt := some "",
    Flavor := some { Flavor.zero with Slug := "vps-1", Cores := 2 } }

/-- What `json.Marshal` gives for `Machine.sample` in `Env.plain`. -/
def Machine.sampleJson : Json :=
  .obj [("machine_id", .str "m1"), ("created_at", .num "1704412800"), ("expiration", .num "0"),
    ("token", .str ""), ("region", .str ""), ("ipv4", .str ""), ("ipv6", .str ""),
    ("deleted_at", .num "1704499200"), ("deleted_by", .str "user-42"), ("forgotten_at", .null),
    ("suspended_at", .str ""), ("provider", .str ""), ("running", .bool false),
    ("deny_smtp", .bool false), ("flavor_slug", .str ""), ("operating_system", .str ""),
    ("hostname", .str ""), ("autorenew", .bool false),
    ("flavor", .obj [("slug", .str "vps-1"), ("cores", .num "2"), ("memory", .num "0"),
      ("disk", .num "0"), ("price", .num "0"), ("ipv4", .str ""), ("ipv6", .str ""),
      ("bandwidth", .num "0"), ("bandwidth_per_month", .num "0"), ("provider_slug", .str ""),
      ("provider", .str "")])]

/-- The body of a mocked response listing one machine, `Machine.sample`. -/
def machinesBody : String :=
  "[\x7b\"machine_id\":\"m1\",\"created_at\":1704412800,\"expiration\":0,"
    ++ "\"token\":\"\",\"region\":\"\",\"ipv4\":\"\",\"ipv6\":\"\","
    ++ "\"deleted_at\":1704499200,\"deleted_by\":\"user-42\","
    ++ "\"forgotten_at\":null,\"suspended_at\":\"\",\"provider\":\"\","
    ++ "\"running\":false,\"deny_smtp\":false,\"flavor_slug\":\"\","
    ++ "\"operating_system\":\"\",\"hostname\":\"\",\"autorenew\":false,"
    ++ "\"flavor\":\x7b\"slug\":\"vps-1\",\"cores\":2,\"memory\":0,\"disk\":0,"
    ++ "\"price\":0,\"ipv4\":\"\",\"ipv6\":\"\",\"bandwidth\":0,"
    ++ "\"bandwidth_per_month\":0,\"provider_slug\":\"\",\"provider\":\"\"\x7d\x7d]"

/-- A scanner that knows the mocked machine list. -/
def machinesScan (text : String) : Except String Json :=
  if text = machinesBody then .ok (.arr [Machine.sampleJson]) else .error "invalid character"

/-- A decoder whose errors are all errors of `encoding/json`: true of every decoder of the
repository, none of whose types has an `UnmarshalJSON` method. -/
def Decoder.JsonErrors {α : Type} (dec : Decoder α) : Prop :=
  ∀ v cur err, (dec v cur).2 = some err → ∃ t, err = .json t

/-- No member of the record names the field: no key equals the name under the case folding of
`encoding/json`. -/
def Lacks (kvs : List (String × Json)) (name : String) : Prop :=
  ∀ kv ∈ kvs, foldName kv.1 ≠ foldName name

/-! ## Theorems: decimal integers -/

theorem digitValue_digitChar (k : Nat) (hk : k < 10) :
    digitValue (Nat.digitChar k) = some k := by
  interval_cases k <;> rfl

theorem digitChar_not_sign (k : Nat) (hk : k < 10) :
    Nat.digitChar k ≠ '-' ∧ Nat.digitChar k ≠ '+' := by
  interval_cases k <;> decide

theorem parseDigits_toDigitsCore (fuel n : Nat) (ds : List Char) (h : n < fuel) :
    parseDigits (Nat.toDigitsCore 10 fuel n ds) 0 = parseDigits ds n := by
  induction fuel generalizing n ds with
  | zero => omega
  | succ fuel ih =>
    unfold Nat.toDigitsCore
    simp only
    by_cases h0 : n / 10 = 0
    · simp only [h0, if_true]
      have hn : 0 * 10 + n % 10 = n := by omega
      simp only [parseDigits, digitValue_digitChar _ (Nat.mod_lt n (by decide : 0 < 10)), hn]
    · simp only [h0, if_false]
      have hlt : n / 10 < fuel := by omega
      have hn : n / 10 * 10 + n % 10 = n := by omega
      rw [ih (n / 10) _ hlt]
      simp only [parseDigits, digitValue_digitChar _ (Nat.mod_lt n (by decide : 0 < 10)), hn]

theorem toDigitsCore_head (fuel n : Nat) (ds : List Char) (h : n < fuel) :
    ∃ k, k < 10 ∧ ∃ rest, Nat.toDigitsCore 10 fuel n ds = Nat.digitChar k :: rest := by
  induction fuel generalizing n ds with
  | zero => omega
  | succ fuel ih =>
    unfold Nat.toDigitsCore
    simp only
    by_cases h0 : n / 10 = 0
    · simp only [h0, if_true]
      exact ⟨n % 10, Nat.mod_lt _ (by decide), ds, rfl⟩
    · simp only [h0, if_false]
      exact ih (n / 10) _ (by omega)

theorem parseUint_repr (m : Nat) : parseUint (Nat.repr m).data = some m := by
  have hd : (Nat.repr m).data = Nat.toDigitsCore 10 (m + 1) m [] := rfl
  obtain ⟨k, _, rest, hk⟩ := toDigitsCore_head (m + 1) m [] (by omega)
  have hp := parseDigits_toDigitsCore (m + 1) m [] (by omega)
  rw [hd]
  rw [hk] at hp ⊢
  simpa [parseUint, parseDigits] using hp

/-- `strconv.ParseInt` reads back the decimal rendering of every `int64`. -/
theorem ParseInt_itoa (n : Int) (h : IsInt64 n) : ParseInt (itoa n) = some n := by
  cases n with
  | ofNat m =>
    have hd : (itoa (Int.ofNat m)).data = (Nat.repr m).data := rfl
    obtain ⟨k, hk10, rest, hk⟩ := toDigitsCore_head (m + 1) m [] (by omega)
    have hk' : (Nat.repr m).data = Nat.digitChar k :: rest := hk
    have hu := parseUint_repr m
    unfold ParseInt
    rw [hd]
    rw [hk'] at hu ⊢
    simp only [(digitChar_not_sign k hk10).1, (digitChar_not_sign k hk10).2, if_false,
      parseSigned, hu, h, if_true, Bool.false_eq_true]
  | negSucc m =>
    have hd : (itoa (Int.negSucc m)).data = '-' :: (Nat.repr (m + 1)).data := rfl
    unfold ParseInt
    rw [hd]
    have h' : IsInt64 (-(Int.ofNat (m + 1))) := h
    simp only [if_true, parseSigned, parseUint_repr, h']
    rfl

/-! ## Theorems: the transport core -/

/-- C2. For every status `s` other than 200 and every body `b`: when the final response of the
transport has status `s` and body `b`, `DoRequest` returns, for any destination (nil or not), the
error of text `"error "`, the decimal `s`, one space, and `b` unchanged; and the destination cell
is what it was. -/
theorem DoRequest_non200 {α : Type} (E : Env) (c : ClientCore) (r : Request)
    (data : Option (Decoder α)) (cell : α) (w : World) (s : Int) (b : String)
    (hwrap : E.fromRequestError r = none)
    (hdo : E.hclientDo c.hclient r = .ok { StatusCode := s, Body := .ok b })
    (hs : s ≠ 200) :
    (DoRequest E c r data cell w).1 = some (.errorf ("error " ++ itoa s ++ " " ++ b))
      ∧ (DoRequest E c r data cell w).2.1 = cell := by
  simp [DoRequest, hwrap, hdo, StatusOK, hs]

/-- C2, at status 404 with body `not found`, for a nil destination. -/
theorem DoRequest_non200_witness :
    (DoRequest (Env.answering 404 "not found" Env.plain.jsonParse) ClientCore.test
        { Method := "GET", URL := "https://api.sporestack.com/x", Header := [], Body := none }
        (none : Option (Decoder Unit)) () World.empty).1
      = some (.errorf "error 404 not found")
    ∧ (DoRequest (Env.answering 404 "not found" Env.plain.jsonParse) ClientCore.test
        { Method := "GET", URL := "https://api.sporestack.com/x", Header := [], Body := none }
        (none : Option (Decoder Unit)) () World.empty).2.1 = () :=
  DoRequest_non200 (Env.answering 404 "not found" Env.plain.jsonParse) ClientCore.test _ none ()
    World.empty 404 "not found" rfl rfl (by decide)

/-- The errors of `json.Unmarshal` are errors of `encoding/json` when those of the decoder are. -/
theorem jsonUnmarshal_jsonErrors {α : Type} (E : Env) (dec : Decoder α) (h : dec.JsonErrors)
    (b : String) (cell : α) (err : GoError) (he : (jsonUnmarshal E dec b cell).2 = some err) :
    ∃ t, err = .json t := by
  unfold jsonUnmarshal at he
  cases hp : E.jsonParse b with
  | error msg =>
    rw [hp] at he
    exact ⟨msg, by simpa using he.symm⟩
  | ok v =>
    rw [hp] at he
    exact h v cell err he

theorem decodeString_jsonErrors (E : Env) : (decodeString E).JsonErrors := by
  intro v cur err h
  cases v <;> simp [decodeString, typeError] at h <;> exact ⟨_, h.symm⟩

/-- C3. For a final response with status 200 and body `b`: `DoRequest` returns a nil error if and
only if the destination is nil or `b` decodes into it without error; with a nil destination the
cell is untouched, whatever `b` is; and when the destination is not nil and decoding `b` gives an
error, `DoRequest` returns that error, which is an error of `encoding/json` and so is not an
application error `error <code> <body>`. -/
theorem DoRequest_200 {α : Type} (E : Env) (c : ClientCore) (r : Request)
    (data : Option (Decoder α)) (cell : α) (w : World) (b : String)
    (hwrap : E.fromRequestError r = none)
    (hdo : E.hclientDo c.hclient r = .ok { StatusCode := 200, Body := .ok b })
    (hjson : ∀ dec, data = some dec → dec.JsonErrors) :
    ((DoRequest E c r data cell w).1 = none
        ↔ data = none ∨ ∃ dec, data = some dec ∧ (jsonUnmarshal E dec b cell).2 = none)
      ∧ (data = none → (DoRequest E c r data cell w).2.1 = cell)
      ∧ (∀ dec err, data = some dec → (jsonUnmarshal E dec b cell).2 = some err →
          (DoRequest E c r data cell w).1 = some err
            ∧ (∃ t, err = .json t)
            ∧ ∀ code body, err ≠ .errorf ("error " ++ itoa code ++ " " ++ body)) := by
  cases data with
  | none => simp [DoRequest, hwrap, hdo, StatusOK]
  | some dec =>
    have hj := hjson dec rfl
    refine ⟨?_, by simp, ?_⟩
    · cases hu : jsonUnmarshal E dec b cell with
      | mk c1 e1 =>
        cases e1 <;> simp [DoRequest, hwrap, hdo, StatusOK, hu]
    · intro dec1 err hd he
      cases hd
      obtain ⟨t, ht⟩ := jsonUnmarshal_jsonErrors E dec hj b cell err he
      refine ⟨?_, ⟨t, ht⟩, ?_⟩
      · cases hu : jsonUnmarshal E dec b cell with
        | mk c1 e1 =>
          rw [hu] at he
          simp only at he
          subst he
          simp [DoRequest, hwrap, hdo, StatusOK, hu]
      · intro code body
        rw [ht]
        simp

/-- C3, at status 200 with an empty body and a string destination: the body does not scan and the
syntax error comes back. -/
theorem DoRequest_200_witness :
    (DoRequest Env.plain ClientCore.test
        { Method := "GET", URL := "https://api.sporestack.com/x", Header := [], Body := none }
        (some (decodeString Env.plain)) "" World.empty).1
      = some (.json "unexpected end of JSON input") :=
  ((DoRequest_200 Env.plain ClientCore.test _ (some (decodeString Env.plain)) "" World.empty ""
      rfl rfl (fun _ h => by cases h; exact decodeString_jsonErrors Env.plain)).2.2
    (decodeString Env.plain) (.json "unexpected end of JSON input") rfl rfl).1

/-- The client of `NewClient` holds the token it was given. -/
theorem NewClient_token (E : Env) (t : String) (c : Client) (h : NewClient E t = some c) :
    c.token = t ∧ c.core.token = t ∧ c.TokenInfo.client = c.core := by
  unfold NewClient at h
  simp only at h
  split at h
  · exact absurd h (by simp)
  · simp only [Option.some.injEq] at h
    subst h
    simp [Client.core]

/-- C4. For every token `t` given to `NewClient` and every method, path and body for which
`NewRequest` succeeds, the request has exactly one `Authorization` value, `"Bearer: "` followed
by `t`, which is not empty and contains `t`, and exactly one `User-Agent` value,
`gosporestack/1.0.0`, which contains the version; with or without a body. -/
theorem NewRequest_headers (E : Env) (t : String) (c : Client) (method path : String)
    (body : Option String) (w : World) (req : Request)
    (hc : NewClient E t = some c)
    (hreq : (NewRequest E c.core method path body w).1 = .ok req) :
    req.Header.Values "Authorization" = ["Bearer: " ++ t]
      ∧ "Bearer: " ++ t ≠ ""
      ∧ containsText ("Bearer: " ++ t) t
      ∧ req.Header.Values "User-Agent" = ["gosporestack/1.0.0"]
      ∧ containsText "gosporestack/1.0.0" version
      ∧ version = "1.0.0" := by
  have ht := (NewClient_token E t c hc).2.1
  refine ⟨?_, ?_, ?_, ?_, by decide, rfl⟩
  · unfold NewRequest httpNewRequest at hreq
    cases he : E.httpNewRequestError method (baseURI ++ path) with
    | some err => simp [he] at hreq
    | none =>
      simp [he] at hreq
      subst hreq
      simp [HTTPHeader.Add, HTTPHeader.Values, ht]
  · intro h
    have := congrArg String.length h
    simp at this
    exact absurd this.1 (by decide)
  · exact ⟨"Bearer: ".data, [], by simp⟩
  · unfold NewRequest httpNewRequest at hreq
    cases he : E.httpNewRequestError method (baseURI ++ path) with
    | some err => simp [he] at hreq
    | none =>
      simp [he] at hreq
      subst hreq
      simp [HTTPHeader.Add, HTTPHeader.Values, userAgent, version]

/-- C4, for the token `tok` and a GET without body in `Env.plain`. -/
theorem NewRequest_headers_witness :
    Request.test.Header.Values "Authorization" = ["Bearer: tok"]
      ∧ "Bearer: tok" ≠ ""
      ∧ containsText "Bearer: tok" "tok"
      ∧ Request.test.Header.Values "User-Agent" = ["gosporestack/1.0.0"]
      ∧ containsText "gosporestack/1.0.0" version
      ∧ version = "1.0.0" :=
  NewRequest_headers Env.plain "tok" Client.test "GET" "/token/tok/info" none World.empty
    Request.test rfl rfl

/-- What `NewRequest` computes: one call of `http.NewRequest` for the base address followed by
the path, and on success the request with the two headers. -/
theorem NewRequest_eq (E : Env) (c : ClientCore) (method path : String) (body : Option String)
    (w : World) :
    NewRequest E c method path body w
      = (match E.httpNewRequestError method (baseURI ++ path) with
          | some err => .error err
          | none =>
            .ok { Method := if method = "" then "GET" else method, URL := baseURI ++ path,
                  Header := [("Authorization", "Bearer: " ++ c.token), ("User-Agent", userAgent)],
                  Body := body },
         { w with built := w.built ++ [(method, baseURI ++ path, body)] }) := by
  unfold NewRequest httpNewRequest
  cases body <;> cases he : E.httpNewRequestError method (baseURI ++ path) <;>
    simp [he, HTTPHeader.Add]

/-- The clear-web base and the onion base give different addresses for every path. -/
theorem baseURI_ne_baseURITor (path : String) : baseURI ++ path ≠ baseURITor ++ path := by
  intro h
  have hd := congrArg String.data h
  simp [baseURI, baseURITor] at hd

/-- C5. For every method, path and body, `NewRequest` calls `http.NewRequest` once, with the
address `https://api.sporestack.com` followed by the path as given and with the body as given; a
request it returns is for that address, not the onion one, and has the body as its payload, a nil
body giving no payload; when `http.NewRequest` fails `NewRequest` returns that error and no
request; and neither the value of `TOR_PROXY`, nor any other variable, nor the transport of the
client changes any of this. -/
theorem NewRequest_target (E : Env) (c : ClientCore) (method path : String)
    (body : Option String) (w : World) :
    (NewRequest E c method path body w).2.built
        = w.built ++ [(method, "https://api.sporestack.com" ++ path, body)]
      ∧ (∀ req, (NewRequest E c method path body w).1 = .ok req →
          req.URL = "https://api.sporestack.com" ++ path ∧ req.URL ≠ baseURITor ++ path
            ∧ req.Body = body)
      ∧ (∀ err, E.httpNewRequestError method (baseURI ++ path) = some err →
          (NewRequest E c method path body w).1 = .error err)
      ∧ (E.httpNewRequestError method (baseURI ++ path) = none →
          ∃ req, (NewRequest E c method path body w).1 = .ok req)
      ∧ (∀ (g : String → String) (h : HClient),
          NewRequest { E with getenv := g } { c with hclient := h } method path body w
            = NewRequest E c method path body w) := by
  rw [NewRequest_eq]
  refine ⟨rfl, ?_, ?_, ?_, ?_⟩
  · intro req hreq
    cases he : E.httpNewRequestError method (baseURI ++ path) with
    | some err => simp [he] at hreq
    | none =>
      simp only [he, Except.ok.injEq] at hreq
      subst hreq
      exact ⟨rfl, baseURI_ne_baseURITor path, rfl⟩
  · intro err he
    simp [he]
  · intro he
    simp [he]
  · intro g h
    rw [NewRequest_eq]

/-- C5, for a POST with a body in `Env.plain`. -/
theorem NewRequest_target_witness :
    ({ Method := "POST", URL := "https://api.sporestack.com/server/m1/stop",
       Header := [("Authorization", "Bearer: tok"), ("User-Agent", "gosporestack/1.0.0")],
       Body := some "payload" } : Request).URL = "https://api.sporestack.com" ++ "/server/m1/stop"
      ∧ ({ Method := "POST", URL := "https://api.sporestack.com/server/m1/stop",
           Header := [("Authorization", "Bearer: tok"), ("User-Agent", "gosporestack/1.0.0")],
           Body := some "payload" } : Request).URL ≠ baseURITor ++ "/server/m1/stop"
      ∧ ({ Method := "POST", URL := "https://api.sporestack.com/server/m1/stop",
           Header := [("Authorization", "Bearer: tok"), ("User-Agent", "gosporestack/1.0.0")],
           Body := some "payload" } : Request).Body = some "payload" :=
  (NewRequest_target Env.plain ClientCore.test "POST" "/server/m1/stop" (some "payload")
    World.empty).2.1 _ rfl

/-- C8. `NewClient` returns a client unless `TOR_PROXY` is set to an address that does not parse
(then the process is ended); and for every token the client it returns has at most 3 retries, a
minimum retry wait of 300 ms, which is exactly a third of the maximum, a maximum retry wait of
900 ms, no logger, the token it was given, and a `TokenInfo` service on that same token and
transport. -/
theorem NewClient_config (E : Env) (t : String) :
    (NewClient E t = none
        ↔ E.getenv "TOR_PROXY" ≠ "" ∧ ∃ err, E.urlParse (E.getenv "TOR_PROXY") = .error err)
      ∧ ∀ c, NewClient E t = some c →
          c.hclient.RetryMax = 3
            ∧ c.hclient.RetryWaitMin = 300 * Millisecond
            ∧ 3 * c.hclient.RetryWaitMin = maxRateLimit
            ∧ c.hclient.RetryWaitMax = 900 * Millisecond
            ∧ c.hclient.RetryWaitMin ≤ c.hclient.RetryWaitMax
            ∧ c.hclient.Logger = none
            ∧ c.token = t
            ∧ c.TokenInfo.client = c.core := by
  constructor
  · unfold NewClient getTorProxy
    by_cases hp : E.getenv "TOR_PROXY" = ""
    · simp [hp]
    · cases hu : E.urlParse (E.getenv "TOR_PROXY") <;> simp [hp, hu]
  · intro c hc
    have ht := NewClient_token E t c hc
    unfold NewClient at hc
    simp only at hc
    split at hc
    · exact absurd hc (by simp)
    · simp only [Option.some.injEq] at hc
      subst hc
      refine ⟨rfl, ?_, ?_, rfl, ?_, rfl, rfl, rfl⟩
      · show Int.tdiv maxRateLimit 3 = 300 * Millisecond
        decide
      · show 3 * Int.tdiv maxRateLimit 3 = maxRateLimit
        decide
      · show Int.tdiv maxRateLimit 3 ≤ maxRateLimit
        decide

/-- C8, for the token `tok` in `Env.plain`, where `TOR_PROXY` is not set. -/
theorem NewClient_config_witness :
    Client.test.hclient.RetryMax = 3
      ∧ Client.test.hclient.RetryWaitMin = 300 * Millisecond
      ∧ 3 * Client.test.hclient.RetryWaitMin = maxRateLimit
      ∧ Client.test.hclient.RetryWaitMax = 900 * Millisecond
      ∧ Client.test.hclient.RetryWaitMin ≤ Client.test.hclient.RetryWaitMax
      ∧ Client.test.hclient.Logger = none
      ∧ Client.test.token = "tok"
      ∧ Client.test.TokenInfo.client = Client.test.core :=
  (NewClient_config Env.plain "tok").2 Client.test rfl

/-! ## Theorems: the retry-exhaustion handler -/

/-- A text of printable ASCII without double quote or backslash is quoted as it stands. -/
theorem Quote_plain (E : Env) (s : String)
    (h : ∀ ch ∈ s.data, 0x20 ≤ ch.toNat ∧ ch.toNat < 0x7F ∧ ch ≠ '"' ∧ ch ≠ '\\') :
    Quote E s = "\"" ++ s ++ "\"" := by
  have key : ∀ l : List Char,
      (∀ ch ∈ l, 0x20 ≤ ch.toNat ∧ ch.toNat < 0x7F ∧ ch ≠ '"' ∧ ch ≠ '\\') →
      (l.map (appendEscapedRune E)).flatten = l := by
    intro l
    induction l with
    | nil => intro _; rfl
    | cons a l ih =>
      intro hl
      have ha := hl a (List.mem_cons_self a l)
      have hrest := ih (fun ch hch => hl ch (List.mem_cons_of_mem a hch))
      have hone : appendEscapedRune E a = [a] := by
        have h1 : a.toNat ≤ 0xFF := by omega
        simp [appendEscapedRune, IsPrint, ha.2.2.1, ha.2.2.2, h1, ha.1, ha.2.1]
      simp [hone, hrest]
  apply String.ext
  simp [Quote, key s.data h]

/-- The text `gave up after N attempts` has N = 4. -/
theorem gaveUp_four (x : String) :
    "gave up after " ++ itoa (retryLimit + 1) ++ x = "gave up after 4" ++ x := by
  have h4 : "gave up after " ++ itoa (retryLimit + 1) = "gave up after 4" := by decide
  rw [h4]

theorem errorHandler_nil (E : Env) (err : Option GoError) (numTries : Int) :
    (errorHandler E none err numTries).2
      = some (.errorf "gave up after 4 attempts, last error unavailable (resp == nil)") := by
  unfold errorHandler
  simp only [gaveUp_four]
  rfl

theorem errorHandler_unreadable (E : Env) (status : Int) (e : GoError) (err : Option GoError)
    (numTries : Int) :
    (errorHandler E (some { StatusCode := status, Body := .error e }) err numTries).2
      = some (.errorf ("gave up after 4 attempts"
          ++ (", last error unavailable (error reading response body: " ++ e.Error ++ ")"))) := by
  unfold errorHandler
  simp only [gaveUp_four]
  congr 2

theorem errorHandler_body (E : Env) (status : Int) (buf : String) (err : Option GoError)
    (numTries : Int) :
    (errorHandler E (some { StatusCode := status, Body := .ok buf }) err numTries).2
      = some (.errorf ("gave up after 4 attempts, last error: " ++ Quote E (TrimSpace buf))) := by
  unfold errorHandler
  simp only [gaveUp_four]
  congr 2

/-- C6, as the code has it. For every call, `errorHandler` returns a nil response and an error
whose text begins `gave up after 4 attempts` (3 retries and the first attempt), whatever
`numTries` is. When `resp` is nil the text is `gave up after 4 attempts, last error unavailable
(resp == nil)` and `err` is not in it. When there is a response whose body can be read, the text
is `gave up after 4 attempts, last error: ` followed by the trimmed body as a quoted Go string
(`%#v`); the trimmed body stands in it unchanged, between double quotes, when it is printable
ASCII without double quote or backslash. -/
theorem errorHandler_text (E : Env) (resp : Option Response) (err : Option GoError)
    (numTries : Int) :
    (errorHandler E resp err numTries).1 = none
      ∧ (∃ rest, (errorHandler E resp err numTries).2
          = some (.errorf ("gave up after 4 attempts" ++ rest)))
      ∧ (resp = none → (errorHandler E resp err numTries).2
          = some (.errorf "gave up after 4 attempts, last error unavailable (resp == nil)"))
      ∧ (∀ status buf, resp = some { StatusCode := status, Body := .ok buf } →
          (errorHandler E resp err numTries).2
              = some (.errorf ("gave up after 4 attempts, last error: " ++ Quote E (TrimSpace buf)))
            ∧ ((∀ ch ∈ (TrimSpace buf).data,
                  0x20 ≤ ch.toNat ∧ ch.toNat < 0x7F ∧ ch ≠ '"' ∧ ch ≠ '\\') →
                (errorHandler E resp err numTries).2
                    = some (.errorf ("gave up after 4 attempts, last error: \""
                        ++ TrimSpace buf ++ "\""))
                  ∧ containsText ("gave up after 4 attempts, last error: \""
                        ++ TrimSpace buf ++ "\"") (TrimSpace buf))) := by
  cases resp with
  | none =>
    refine ⟨rfl, ⟨", last error unavailable (resp == nil)", ?_⟩, fun _ => ?_, ?_⟩
    · rw [errorHandler_nil]; rfl
    · rw [errorHandler_nil]
    · intro status buf hr
      cases hr
  | some r =>
    obtain ⟨st, body⟩ := r
    cases body with
    | error e =>
      refine ⟨rfl, ⟨", last error unavailable (error reading response body: " ++ e.Error ++ ")",
        ?_⟩, (fun hr => by cases hr), ?_⟩
      · rw [errorHandler_unreadable]
      · intro status buf hr
        cases hr
    | ok buf0 =>
      refine ⟨rfl, ⟨", last error: " ++ Quote E (TrimSpace buf0), ?_⟩, (fun hr => by cases hr),
        ?_⟩
      · rw [errorHandler_body]
        congr 2
      · intro status buf hr
        cases hr
        refine ⟨errorHandler_body E st buf0 err numTries, ?_⟩
        intro hplain
        rw [errorHandler_body, Quote_plain E _ hplain]
        refine ⟨?_, ?_⟩
        · congr 2
        · exact ⟨"gave up after 4 attempts, last error: \"".data, "\"".data, by simp⟩

/-- C6 as the code has it, for a response with the body `service unavailable` between white
space. -/
theorem errorHandler_text_witness :
    (errorHandler Env.plain (some { StatusCode := 503, Body := .ok "  service unavailable \n" })
        none 4).2
      = some (.errorf "gave up after 4 attempts, last error: \"service unavailable\"") :=
  (((errorHandler_text Env.plain (some { StatusCode := 503, Body := .ok "  service unavailable \n" })
      none 4).2.2.2 503 "  service unavailable \n" rfl).2 (by decide)).1

/-- C6 fails as stated. With no response and the transport error `connection refused`, the text
of the error does not include the transport error; and with a response of body `say "hi"`, the
text does not include the body, whose quotes are escaped. -/
theorem errorHandler_omits_cause :
    (errorHandler Env.plain none (some (.lib "connection refused")) 4).2
        = some (.errorf "gave up after 4 attempts, last error unavailable (resp == nil)")
      ∧ ¬ containsText "gave up after 4 attempts, last error unavailable (resp == nil)"
          "connection refused"
      ∧ (errorHandler Env.plain (some { StatusCode := 500, Body := .ok "say \"hi\"" }) none 4).2
        = some (.errorf "gave up after 4 attempts, last error: \"say \\\"hi\\\"\"")
      ∧ ¬ containsText "gave up after 4 attempts, last error: \"say \\\"hi\\\"\"" "say \"hi\"" := by
  refine ⟨by decide, by decide, by decide, by decide⟩

/-! ## Theorems: the resource methods -/

theorem Launch_roundTrip (E : Env) (c : ClientCore) (reqq : Option ServerLaunchRequest) (w : World) :
    ServerService.Launch E { client := c } reqq w
      = roundTrip E c "POST" ("/token/" ++ c.token ++ "/servers")
          (some (E.jsonRender (encodeServerLaunchRequest reqq))) (decodeServerLaunchResponse E)
          { MachineID := "" } some none w := by
  unfold ServerService.Launch roundTrip
  simp only [jsonMarshal]
  rcases NewRequest E c "POST" _ _ w with ⟨_ | req, w1⟩
  · rfl
  · simp only
    rcases DoRequest E c req (some (decodeServerLaunchResponse E)) _ w1 with ⟨_ | e, x, w2⟩ <;> rfl

theorem List_roundTrip (E : Env) (c : ClientCore) (w : World) :
    ServerService.List E { client := c } w
      = roundTrip E c "GET" ("/token" ++ c.token ++ "/servers") none (decodeMachines E) none
          id none w := by
  unfold ServerService.List roundTrip
  rcases NewRequest E c "GET" _ _ w with ⟨_ | req, w1⟩
  · rfl
  · simp only
    rcases DoRequest E c req (some (decodeMachines E)) _ w1 with ⟨_ | e, x, w2⟩ <;> rfl

theorem TopUp_roundTrip (E : Env) (c : ClientCore) (machineId : String) (days : Int) (w : World) :
    ServerService.TopUp E { client := c } machineId days w
      = roundTrip E c "POST" ("/server/" ++ machineId ++ "/topup")
          (some (E.jsonRender (encodeTopUpRequest { Days := days, Token := some c.token })))
          (decodeString E) "" id "" w := by
  unfold ServerService.TopUp roundTrip
  simp only [jsonMarshal]
  rcases NewRequest E c "POST" _ _ w with ⟨_ | req, w1⟩
  · rfl
  · simp only
    rcases DoRequest E c req (some (decodeString E)) _ w1 with ⟨_ | e, x, w2⟩ <;> rfl

theorem Update_roundTrip (E : Env) (c : ClientCore) (machineId hostname : String) (autoRenew : Bool) (w : World) :
    ServerService.Update E { client := c } machineId hostname autoRenew w
      = roundTrip E c "PATCH" ("/server/" ++ machineId)
          (some (E.jsonRender
            (encodeUpdateRequest { HostName := hostname, AutoRenew := autoRenew })))
          (decodeString E) "" id "" w := by
  unfold ServerService.Update roundTrip
  simp only [jsonMarshal]
  rcases NewRequest E c "PATCH" _ _ w with ⟨_ | req, w1⟩
  · rfl
  · simp only
    rcases DoRequest E c req (some (decodeString E)) _ w1 with ⟨_ | e, x, w2⟩ <;> rfl

theorem Delete_roundTrip (E : Env) (c : ClientCore) (machineId : String) (w : World) :
    ServerService.Delete E { client := c } machineId w
      = roundTrip E c "DELETE" ("/server/" ++ machineId) none (decodeString E) "" id "" w := by
  unfold ServerService.Delete roundTrip
  rcases NewRequest E c "DELETE" _ _ w with ⟨_ | req, w1⟩
  · rfl
  · simp only
    rcases DoRequest E c req (some (decodeString E)) _ w1 with ⟨_ | e, x, w2⟩ <;> rfl

theorem Forget_roundTrip (E : Env) (c : ClientCore) (machineId : String) (w : World) :
    ServerService.Forget E { client := c } machineId w
      = roundTrip E c "POST" ("/server/" ++ machineId ++ "/forget") none (decodeString E) "" id
          "" w := by
  unfold ServerService.Forget roundTrip
  rcases NewRequest E c "POST" _ _ w with ⟨_ | req, w1⟩
  · rfl
  · simp only
    rcases DoRequest E c req (some (decodeString E)) _ w1 with ⟨_ | e, x, w2⟩ <;> rfl

theorem Rebuild_roundTrip (E : Env) (c : ClientCore) (machineId : String) (w : World) :
    ServerService.Rebuild E { client := c } machineId w
      = roundTrip E c "POST" ("/server/" ++ machineId ++ "/rebuild") none (decodeString E) "" id
          "" w := by
  unfold ServerService.Rebuild roundTrip
  rcases NewRequest E c "POST" _ _ w with ⟨_ | req, w1⟩
  · rfl
  · simp only
    rcases DoRequest E c req (some (decodeString E)) _ w1 with ⟨_ | e, x, w2⟩ <;> rfl

theorem Stop_roundTrip (E : Env) (c : ClientCore) (machineId : String) (w : World) :
    ServerService.Stop E { client := c } machineId w
      = roundTrip E c "POST" ("/server/" ++ machineId ++ "/stop") none (decodeString E) "" id
          "" w := by
  unfold ServerService.Stop roundTrip
  rcases NewRequest E c "POST" _ _ w with ⟨_ | req, w1⟩
  · rfl
  · simp only
    rcases DoRequest E c req (some (decodeString E)) _ w1 with ⟨_ | e, x, w2⟩ <;> rfl

theorem Get_roundTrip (E : Env) (c : ClientCore) (w : World) :
    TokenInfoService.Get E { client := c } w
      = roundTrip E c "GET" ("/token/" ++ c.token ++ "/info") none (decodeTokenInfo E)
          TokenInfo.zero some none w := by
  unfold TokenInfoService.Get roundTrip
  rcases NewRequest E c "GET" _ _ w with ⟨_ | req, w1⟩
  · rfl
  · simp only
    rcases DoRequest E c req (some (decodeTokenInfo E)) _ w1 with ⟨_ | e, x, w2⟩ <;> rfl

theorem GetInvoices_roundTrip (E : Env) (c : ClientCore) (w : World) :
    TokenInfoService.GetInvoices E { client := c } w
      = roundTrip E c "GET" ("/token/" ++ c.token ++ "/invoices") none (decodePayment E)
          Payment.zero some none w := by
  unfold TokenInfoService.GetInvoices roundTrip
  rcases NewRequest E c "GET" _ _ w with ⟨_ | req, w1⟩
  · rfl
  · simp only
    rcases DoRequest E c req (some (decodePayment E)) _ w1 with ⟨_ | e, x, w2⟩ <;> rfl

/-- The world after `DoRequest`: the request was handed to the transport when it could be
wrapped, and nothing else changed. -/
theorem DoRequest_world {α : Type} (E : Env) (c : ClientCore) (r : Request)
    (data : Option (Decoder α)) (cell : α) (w : World) :
    (DoRequest E c r data cell w).2.2
      = if E.fromRequestError r = none then { w with sent := w.sent ++ [r] } else w := by
  unfold DoRequest
  cases hw : E.fromRequestError r with
  | some err => simp
  | none =>
    simp only [if_true]
    cases E.hclientDo c.hclient r with
    | error err => rfl
    | ok res =>
      simp only
      cases res.Body with
      | error err => rfl
      | ok body =>
        simp only
        by_cases hs : res.StatusCode = StatusOK
        · simp only [hs, if_true]
          cases data with
          | none => rfl
          | some dec =>
            simp only
            rcases jsonUnmarshal E dec body cell with ⟨c1, _ | e⟩ <;> rfl
        · simp only [hs, if_false]

/-- What `DoRequest` returns when the request is wrapped and the final response has status `s`
and body `b`. -/
theorem DoRequest_response {α : Type} (E : Env) (c : ClientCore) (r : Request)
    (dec : Decoder α) (cell : α) (w : World) (s : Int) (b : String)
    (hwrap : E.fromRequestError r = none)
    (hdo : E.hclientDo c.hclient r = .ok { StatusCode := s, Body := .ok b }) :
    DoRequest E c r (some dec) cell w
      = if s = 200 then
          ((jsonUnmarshal E dec b cell).2, (jsonUnmarshal E dec b cell).1,
            { w with sent := w.sent ++ [r] })
        else
          (some (.errorf ("error " ++ itoa s ++ " " ++ b)), cell,
            { w with sent := w.sent ++ [r] }) := by
  unfold DoRequest
  simp only [hwrap, hdo, StatusOK]
  by_cases hs : s = 200
  · simp only [hs, if_true]
    rcases jsonUnmarshal E dec b cell with ⟨c1, _ | e⟩ <;> rfl
  · simp only [hs, if_false]

/-- The shared shape calls `http.NewRequest` once and sends at most the request so made. -/
theorem roundTrip_builds {α ρ : Type} (E : Env) (c : ClientCore) (method path : String)
    (body : Option String) (dec : Decoder α) (zero : α) (ok : α → ρ) (nil : ρ) (w : World)
    (hm : method ≠ "") :
    BuildsOne w (roundTrip E c method path body dec zero ok nil w).2 method path := by
  unfold roundTrip
  rw [NewRequest_eq]
  cases he : E.httpNewRequestError method (baseURI ++ path) with
  | some err => exact ⟨⟨body, rfl⟩, Or.inl rfl⟩
  | none =>
    simp only [hm, if_false]
    generalize hreq : Request.mk method (baseURI ++ path)
      [("Authorization", "Bearer: " ++ c.token), ("User-Agent", userAgent)] body = req
    have hw := DoRequest_world E c req (some dec) zero
      { w with built := w.built ++ [(method, baseURI ++ path, body)] }
    rcases hd : DoRequest E c req (some dec) zero
      { w with built := w.built ++ [(method, baseURI ++ path, body)] } with ⟨e, x, w2⟩
    rw [hd] at hw
    simp only at hw
    have hfin : BuildsOne w w2 method path := by
      rw [hw]
      by_cases hf : E.fromRequestError req = none
      · simp only [hf, if_true]
        refine ⟨⟨body, rfl⟩, Or.inr ⟨req, ?_, ?_, rfl⟩⟩ <;> subst hreq <;> rfl
      · simp only [hf, if_false]
        exact ⟨⟨body, rfl⟩, Or.inl rfl⟩
    cases e <;> exact hfin

/-- The shared shape on a final response: the nil result and the application error when the
status is not 200, the decoded destination when it is 200 and the body decodes. -/
theorem roundTrip_response {α ρ : Type} (E : Env) (c : ClientCore) (method path : String)
    (body : Option String) (dec : Decoder α) (zero : α) (ok : α → ρ) (nil : ρ) (w : World)
    (s : Int) (b : String) (hm : method ≠ "")
    (hbuild : E.httpNewRequestError method (baseURI ++ path) = none)
    (hwrap : E.fromRequestError
      { Method := method, URL := baseURI ++ path,
        Header := [("Authorization", "Bearer: " ++ c.token), ("User-Agent", userAgent)],
        Body := body } = none)
    (hdo : E.hclientDo c.hclient
      { Method := method, URL := baseURI ++ path,
        Header := [("Authorization", "Bearer: " ++ c.token), ("User-Agent", userAgent)],
        Body := body } = .ok { StatusCode := s, Body := .ok b }) :
    (s ≠ 200 → (roundTrip E c method path body dec zero ok nil w).1
        = (nil, some (.errorf ("error " ++ itoa s ++ " " ++ b))))
      ∧ (s = 200 → (jsonUnmarshal E dec b zero).2 = none →
          (roundTrip E c method path body dec zero ok nil w).1
            = (ok (jsonUnmarshal E dec b zero).1, none)) := by
  unfold roundTrip
  rw [NewRequest_eq]
  simp only [hbuild, hm, if_false]
  rw [DoRequest_response E c _ dec zero _ s b hwrap hdo]
  constructor
  · intro hs
    simp only [hs, if_false]
  · intro hs hdec
    simp only [hs, if_true]
    rcases hu : jsonUnmarshal E dec b zero with ⟨c1, e1⟩
    rw [hu] at hdec
    simp only at hdec
    subst hdec
    rfl

/-- The path of `Quote` as the code concatenates it is the path of the endpoint table. -/
theorem quotePath_eq (days flavor provider : String) :
    "/server/quote?" ++ "days=" ++ days ++ "&flavor_slug=" ++ flavor ++ "&provider=" ++ provider
      = "/server/quote?days=" ++ days ++ "&flavor_slug=" ++ flavor ++ "&provider=" ++ provider := by
  have h : "/server/quote?" ++ "days=" = "/server/quote?days=" := by decide
  rw [h]

/-- The calls that `Quote` makes are those of the shared shape. -/
theorem Quote_world (E : Env) (c : ClientCore) (days flavor provider : String) (w : World) :
    (ServerService.Quote E { client := c } days flavor provider w).2
      = (roundTrip E c "GET"
          ("/server/quote?days=" ++ days ++ "&flavor_slug=" ++ flavor ++ "&provider=" ++ provider)
          none (decodeQuoteResponse E) { Cents := 0, Usd := "" } some none w).2 := by
  unfold ServerService.Quote roundTrip
  rw [quotePath_eq]
  rcases NewRequest E c "GET" _ _ w with ⟨_ | req, w1⟩
  · rfl
  · simp only
    rcases DoRequest E c req (some (decodeQuoteResponse E)) _ w1 with ⟨_ | e, x, w2⟩ <;> rfl

/-- What `Quote` returns on a final response: the quote as `DoRequest` left it and a nil error,
whatever the status. -/
theorem Quote_response (E : Env) (c : ClientCore) (days flavor provider : String) (w : World)
    (s : Int) (b : String) (h : FinalResponse E c (.Quote days flavor provider) s b) :
    (ServerService.Quote E { client := c } days flavor provider w).1
      = (some (if s = 200 then
            (jsonUnmarshal E (decodeQuoteResponse E) b { Cents := 0, Usd := "" }).1
          else { Cents := 0, Usd := "" }), none) := by
  obtain ⟨hb, hw, hd⟩ := h
  unfold ServerService.Quote
  rw [quotePath_eq, NewRequest_eq]
  have hb1 : E.httpNewRequestError "GET" (baseURI ++ ("/server/quote?days=" ++ days
      ++ "&flavor_slug=" ++ flavor ++ "&provider=" ++ provider)) = none := hb
  simp only [hb1]
  have hne : ¬ ("GET" = "") := by decide
  simp only [hne, if_false]
  have hw1 : E.fromRequestError (Request.mk "GET" (baseURI ++ ("/server/quote?days=" ++ days
      ++ "&flavor_slug=" ++ flavor ++ "&provider=" ++ provider))
      [("Authorization", "Bearer: " ++ c.token), ("User-Agent", userAgent)] none) = none := hw
  have hd1 : E.hclientDo c.hclient (Request.mk "GET" (baseURI ++ ("/server/quote?days=" ++ days
      ++ "&flavor_slug=" ++ flavor ++ "&provider=" ++ provider))
      [("Authorization", "Bearer: " ++ c.token), ("User-Agent", userAgent)] none)
      = .ok { StatusCode := s, Body := .ok b } := hd
  rw [DoRequest_response E c _ (decodeQuoteResponse E) _ _ s b hw1 hd1]
  by_cases hs : s = 200
  · simp only [hs, if_true]
    rcases jsonUnmarshal E (decodeQuoteResponse E) b { Cents := 0, Usd := "" } with ⟨c1, _ | e⟩
      <;> rfl
  · simp only [hs, if_false]

/-- Every call makes one call of `http.NewRequest`, for the method and path of the endpoint
table, and sends at most the request so made. -/
theorem run_builds (E : Env) (c : ClientCore) (call : Call) (w : World) :
    BuildsOne w (call.run E c w).2 (call.endpoint c.token).1 (call.endpoint c.token).2 := by
  cases call with
  | Launch reqq =>
    show BuildsOne w (ServerService.Launch E { client := c } reqq w).2 _ _
    rw [Launch_roundTrip]; exact roundTrip_builds _ _ _ _ _ _ _ _ _ _ (by decide)
  | List =>
    show BuildsOne w (ServerService.List E { client := c } w).2 _ _
    rw [List_roundTrip]; exact roundTrip_builds _ _ _ _ _ _ _ _ _ _ (by decide)
  | Quote days flavor provider =>
    show BuildsOne w (ServerService.Quote E { client := c } days flavor provider w).2 _ _
    rw [Quote_world]; exact roundTrip_builds _ _ _ _ _ _ _ _ _ _ (by decide)
  | TopUp machineId days =>
    show BuildsOne w (ServerService.TopUp E { client := c } machineId days w).2 _ _
    rw [TopUp_roundTrip]; exact roundTrip_builds _ _ _ _ _ _ _ _ _ _ (by decide)
  | Update machineId hostname autoRenew =>
    show BuildsOne w (ServerService.Update E { client := c } machineId hostname autoRenew w).2 _ _
    rw [Update_roundTrip]; exact roundTrip_builds _ _ _ _ _ _ _ _ _ _ (by decide)
  | Delete machineId =>
    show BuildsOne w (ServerService.Delete E { client := c } machineId w).2 _ _
    rw [Delete_roundTrip]; exact roundTrip_builds _ _ _ _ _ _ _ _ _ _ (by decide)
  | Forget machineId =>
    show BuildsOne w (ServerService.Forget E { client := c } machineId w).2 _ _
    rw [Forget_roundTrip]; exact roundTrip_builds _ _ _ _ _ _ _ _ _ _ (by decide)
  | Rebuild machineId =>
    show BuildsOne w (ServerService.Rebuild E { client := c } machineId w).2 _ _
    rw [Rebuild_roundTrip]; exact roundTrip_builds _ _ _ _ _ _ _ _ _ _ (by decide)
  | Stop machineId =>
    show BuildsOne w (ServerService.Stop E { client := c } machineId w).2 _ _
    rw [Stop_roundTrip]; exact roundTrip_builds _ _ _ _ _ _ _ _ _ _ (by decide)
  | TokenInfoGet =>
    show BuildsOne w (TokenInfoService.Get E { client := c } w).2 _ _
    rw [Get_roundTrip]; exact roundTrip_builds _ _ _ _ _ _ _ _ _ _ (by decide)
  | TokenInfoGetInvoices =>
    show BuildsOne w (TokenInfoService.GetInvoices E { client := c } w).2 _ _
    rw [GetInvoices_roundTrip]; exact roundTrip_builds _ _ _ _ _ _ _ _ _ _ (by decide)

/-- C7. Each resource method calls `http.NewRequest` exactly once, for the HTTP method and the
path of the endpoint table appended to the base address, the token, the machine id and the
quote arguments being inserted as they are; and it hands at most the request so made to the
transport. `List` has no `/` between `token` and the token. -/
theorem endpoint_table (E : Env) (c : ClientCore) (w : World) :
    (∀ reqq, BuildsOne w (ServerService.Launch E { client := c } reqq w).2
        "POST" ("/token/" ++ c.token ++ "/servers"))
      ∧ BuildsOne w (ServerService.List E { client := c } w).2
          "GET" ("/token" ++ c.token ++ "/servers")
      ∧ (∀ days flavor provider,
          BuildsOne w (ServerService.Quote E { client := c } days flavor provider w).2 "GET"
            ("/server/quote?days=" ++ days ++ "&flavor_slug=" ++ flavor ++ "&provider="
              ++ provider))
      ∧ (∀ m days, BuildsOne w (ServerService.TopUp E { client := c } m days w).2
          "POST" ("/server/" ++ m ++ "/topup"))
      ∧ (∀ m hostname autoRenew,
          BuildsOne w (ServerService.Update E { client := c } m hostname autoRenew w).2
            "PATCH" ("/server/" ++ m))
      ∧ (∀ m, BuildsOne w (ServerService.Delete E { client := c } m w).2
          "DELETE" ("/server/" ++ m))
      ∧ (∀ m, BuildsOne w (ServerService.Forget E { client := c } m w).2
          "POST" ("/server/" ++ m ++ "/forget"))
      ∧ (∀ m, BuildsOne w (ServerService.Rebuild E { client := c } m w).2
          "POST" ("/server/" ++ m ++ "/rebuild"))
      ∧ (∀ m, BuildsOne w (ServerService.Stop E { client := c } m w).2
          "POST" ("/server/" ++ m ++ "/stop"))
      ∧ BuildsOne w (TokenInfoService.Get E { client := c } w).2
          "GET" ("/token/" ++ c.token ++ "/info")
      ∧ BuildsOne w (TokenInfoService.GetInvoices E { client := c } w).2
          "GET" ("/token/" ++ c.token ++ "/invoices") :=
  ⟨fun reqq => run_builds E c (.Launch reqq) w,
   run_builds E c .List w,
   fun days flavor provider => run_builds E c (.Quote days flavor provider) w,
   fun m days => run_builds E c (.TopUp m days) w,
   fun m hostname autoRenew => run_builds E c (.Update m hostname autoRenew) w,
   fun m => run_builds E c (.Delete m) w,
   fun m => run_builds E c (.Forget m) w,
   fun m => run_builds E c (.Rebuild m) w,
   fun m => run_builds E c (.Stop m) w,
   run_builds E c .TokenInfoGet w,
   run_builds E c .TokenInfoGetInvoices w⟩

/-- C7, for `List` on the token `tok`: the one request is a GET of `/tokentok/servers`. -/
theorem endpoint_table_witness :
    BuildsOne World.empty (ServerService.List Env.plain { client := ClientCore.test } World.empty).2
      "GET" "/tokentok/servers" :=
  (endpoint_table Env.plain ClientCore.test World.empty).2.1

/-- Every resource method other than `Quote`, on a final response with a status other than 200:
the nil result (the empty string for the methods that return a string) and the application
error, whose text contains the decimal status code and the body. -/
theorem run_non200 (E : Env) (c : ClientCore) (call : Call) (w : World) (s : Int) (b : String)
    (hq : ∀ days flavor provider, call ≠ .Quote days flavor provider)
    (h : FinalResponse E c call s b) (hs : s ≠ 200) :
    (call.run E c w).1 = (call.nilResult, some (.errorf ("error " ++ itoa s ++ " " ++ b)))
      ∧ containsText ("error " ++ itoa s ++ " " ++ b) (itoa s)
      ∧ containsText ("error " ++ itoa s ++ " " ++ b) b := by
  refine ⟨?_, ⟨"error ".data, (" " ++ b).data, by simp⟩, ⟨("error " ++ itoa s ++ " ").data, [], by simp⟩⟩
  obtain ⟨hb, hw, hd⟩ := h
  cases call with
  | Quote days flavor provider => exact absurd rfl (hq days flavor provider)
  | Launch reqq =>
    have key := roundTrip_response E c "POST" ("/token/" ++ c.token ++ "/servers")
      (some (E.jsonRender (encodeServerLaunchRequest reqq)))
      (decodeServerLaunchResponse E) { MachineID := "" } some none w s b (by decide) hb hw hd
    simp only [Call.run, Launch_roundTrip, key.1 hs, Call.nilResult]
  | List =>
    have key := roundTrip_response E c "GET" ("/token" ++ c.token ++ "/servers")
      none
      (decodeMachines E) none id none w s b (by decide) hb hw hd
    simp only [Call.run, List_roundTrip, key.1 hs, Call.nilResult]
  | TopUp machineId days =>
    have key := roundTrip_response E c "POST" ("/server/" ++ machineId ++ "/topup")
      (some (E.jsonRender (encodeTopUpRequest { Days := days, Token := some c.token })))
      (decodeString E) "" id "" w s b (by decide) hb hw hd
    simp only [Call.run, TopUp_roundTrip, key.1 hs, Call.nilResult]
  | Update machineId hostname autoRenew =>
    have key := roundTrip_response E c "PATCH" ("/server/" ++ machineId)
      (some (E.jsonRender (encodeUpdateRequest { HostName := hostname, AutoRenew := autoRenew })))
      (decodeString E) "" id "" w s b (by decide) hb hw hd
    simp only [Call.run, Update_roundTrip, key.1 hs, Call.nilResult]
  | Delete machineId =>
    have key := roundTrip_response E c "DELETE" ("/server/" ++ machineId)
      none
      (decodeString E) "" id "" w s b (by decide) hb hw hd
    simp only [Call.run, Delete_roundTrip, key.1 hs, Call.nilResult]
  | Forget machineId =>
    have key := roundTrip_response E c "POST" ("/server/" ++ machineId ++ "/forget")
      none
      (decodeString E) "" id "" w s b (by decide) hb hw hd
    simp only [Call.run, Forget_roundTrip, key.1 hs, Call.nilResult]
  | Rebuild machineId =>
    have key := roundTrip_response E c "POST" ("/server/" ++ machineId ++ "/rebuild")
      none
      (decodeString E) "" id "" w s b (by decide) hb hw hd
    simp only [Call.run, Rebuild_roundTrip, key.1 hs, Call.nilResult]
  | Stop machineId =>
    have key := roundTrip_response E c "POST" ("/server/" ++ machineId ++ "/stop")
      none
      (decodeString E) "" id "" w s b (by decide) hb hw hd
    simp only [Call.run, Stop_roundTrip, key.1 hs, Call.nilResult]
  | TokenInfoGet =>
    have key := roundTrip_response E c "GET" ("/token/" ++ c.token ++ "/info")
      none
      (decodeTokenInfo E) TokenInfo.zero some none w s b (by decide) hb hw hd
    simp only [Call.run, Get_roundTrip, key.1 hs, Call.nilResult]
  | TokenInfoGetInvoices =>
    have key := roundTrip_response E c "GET" ("/token/" ++ c.token ++ "/invoices")
      none
      (decodePayment E) Payment.zero some none w s b (by decide) hb hw hd
    simp only [Call.run, GetInvoices_roundTrip, key.1 hs, Call.nilResult]

/-- The launch response `machine_id: s` decodes to the machine id `s`. -/
theorem decode_launch (E : Env) (s : String) :
    decodeServerLaunchResponse E (.obj [("machine_id", .str s)]) { MachineID := "" }
      = ({ MachineID := s }, none) := by
  simp [decodeServerLaunchResponse, decodeStruct, decodeMembers, matchField,
    ServerLaunchResponse.setField, decodeString, firstError]

/-- On a 200 response whose body decodes without error as the result type of the call, the call
returns what the body decodes to, and a nil error. -/
theorem run_200_decoded (E : Env) (c : ClientCore) (call : Call) (w : World) (b : String)
    (h : FinalResponse E c call 200 b) (hdec : (call.decoded E b).2 = none) :
    (call.run E c w).1 = ((call.decoded E b).1, none) := by
  cases call with
  | Quote days flavor provider =>
    have hq := Quote_response E c days flavor provider w 200 b h
    simp only [Call.run, hq, Call.decoded, if_true] at hdec ⊢
  | Launch reqq =>
    obtain ⟨hb, hw, hd⟩ := h
    have key := roundTrip_response E c "POST" ("/token/" ++ c.token ++ "/servers")
      (some (E.jsonRender (encodeServerLaunchRequest reqq)))
      (decodeServerLaunchResponse E) { MachineID := "" } some none w 200 b (by decide) hb hw hd
    simp only [Call.decoded] at hdec
    simp only [Call.run, Launch_roundTrip, key.2 rfl hdec, Call.decoded, id]
  | List =>
    obtain ⟨hb, hw, hd⟩ := h
    have key := roundTrip_response E c "GET" ("/token" ++ c.token ++ "/servers")
      none
      (decodeMachines E) none id none w 200 b (by decide) hb hw hd
    simp only [Call.decoded] at hdec
    simp only [Call.run, List_roundTrip, key.2 rfl hdec, Call.decoded, id]
  | TopUp machineId days =>
    obtain ⟨hb, hw, hd⟩ := h
    have key := roundTrip_response E c "POST" ("/server/" ++ machineId ++ "/topup")
      (some (E.jsonRender (encodeTopUpRequest { Days := days, Token := some c.token })))
      (decodeString E) "" id "" w 200 b (by decide) hb hw hd
    simp only [Call.decoded] at hdec
    simp only [Call.run, TopUp_roundTrip, key.2 rfl hdec, Call.decoded, id]
  | Update machineId hostname autoRenew =>
    obtain ⟨hb, hw, hd⟩ := h
    have key := roundTrip_response E c "PATCH" ("/server/" ++ machineId)
      (some (E.jsonRender (encodeUpdateRequest { HostName := hostname, AutoRenew := autoRenew })))
      (decodeString E) "" id "" w 200 b (by decide) hb hw hd
    simp only [Call.decoded] at hdec
    simp only [Call.run, Update_roundTrip, key.2 rfl hdec, Call.decoded, id]
  | Delete machineId =>
    obtain ⟨hb, hw, hd⟩ := h
    have key := roundTrip_response E c "DELETE" ("/server/" ++ machineId)
      none
      (decodeString E) "" id "" w 200 b (by decide) hb hw hd
    simp only [Call.decoded] at hdec
    simp only [Call.run, Delete_roundTrip, key.2 rfl hdec, Call.decoded, id]
  | Forget machineId =>
    obtain ⟨hb, hw, hd⟩ := h
    have key := roundTrip_response E c "POST" ("/server/" ++ machineId ++ "/forget")
      none
      (decodeString E) "" id "" w 200 b (by decide) hb hw hd
    simp only [Call.decoded] at hdec
    simp only [Call.run, Forget_roundTrip, key.2 rfl hdec, Call.decoded, id]
  | Rebuild machineId =>
    obtain ⟨hb, hw, hd⟩ := h
    have key := roundTrip_response E c "POST" ("/server/" ++ machineId ++ "/rebuild")
      none
      (decodeString E) "" id "" w 200 b (by decide) hb hw hd
    simp only [Call.decoded] at hdec
    simp only [Call.run, Rebuild_roundTrip, key.2 rfl hdec, Call.decoded, id]
  | Stop machineId =>
    obtain ⟨hb, hw, hd⟩ := h
    have key := roundTrip_response E c "POST" ("/server/" ++ machineId ++ "/stop")
      none
      (decodeString E) "" id "" w 200 b (by decide) hb hw hd
    simp only [Call.decoded] at hdec
    simp only [Call.run, Stop_roundTrip, key.2 rfl hdec, Call.decoded, id]
  | TokenInfoGet =>
    obtain ⟨hb, hw, hd⟩ := h
    have key := roundTrip_response E c "GET" ("/token/" ++ c.token ++ "/info")
      none
      (decodeTokenInfo E) TokenInfo.zero some none w 200 b (by decide) hb hw hd
    simp only [Call.decoded] at hdec
    simp only [Call.run, Get_roundTrip, key.2 rfl hdec, Call.decoded, id]
  | TokenInfoGetInvoices =>
    obtain ⟨hb, hw, hd⟩ := h
    have key := roundTrip_response E c "GET" ("/token/" ++ c.token ++ "/invoices")
      none
      (decodePayment E) Payment.zero some none w 200 b (by decide) hb hw hd
    simp only [Call.decoded] at hdec
    simp only [Call.run, GetInvoices_roundTrip, key.2 rfl hdec, Call.decoded, id]

theorem decodeInt_itoa (E : Env) (goType : String) (n cur : Int) (h : IsInt64 n) :
    decodeInt E goType (.num (itoa n)) cur = (n, none) := by
  simp only [decodeInt, ParseInt_itoa n h]

theorem decodeTokenInfo_encode (E : Env) (x : TokenInfo) (h : x.Valid) :
    decodeTokenInfo E (encodeTokenInfo x) TokenInfo.zero = (x, none) := by
  obtain ⟨h1, h2, h3, h4, h5, h6⟩ := h
  obtain ⟨a1, a2, a3, a4, a5, a6, a7, a8⟩ := x
  simp only [TokenInfo.Valid] at *
  simp [decodeTokenInfo, encodeTokenInfo, decodeStruct, decodeMembers, matchField,
    TokenInfo.names, TokenInfo.setField, TokenInfo.zero, decodeString, decodeInt_itoa, firstError,
    h1, h2, h3, h4, h5, h6]

theorem decodeQuoteResponse_encode (E : Env) (x : QuoteResponse) (h : x.Valid) :
    decodeQuoteResponse E (encodeQuoteResponse x) { Cents := 0, Usd := "" } = (x, none) := by
  obtain ⟨a1, a2⟩ := x
  simp only [QuoteResponse.Valid] at h
  simp [decodeQuoteResponse, encodeQuoteResponse, decodeStruct, decodeMembers, matchField,
    QuoteResponse.setField, decodeString, decodeInt_itoa, firstError, h]

theorem decodeServerLaunchResponse_encode (E : Env) (x : ServerLaunchResponse) :
    decodeServerLaunchResponse E (encodeServerLaunchResponse x) { MachineID := "" }
      = (x, none) := by
  obtain ⟨a1⟩ := x
  simp [decodeServerLaunchResponse, encodeServerLaunchResponse, decodeStruct, decodeMembers,
    matchField, ServerLaunchResponse.setField, decodeString, firstError]

theorem decodePayment_encode (E : Env) (x : Payment) (h : x.Valid) :
    decodePayment E (encodePayment x) Payment.zero = (x, none) := by
  obtain ⟨h1, h2, h3, h4⟩ := h
  obtain ⟨a1, a2, a3, a4, a5, a6, a7, a8, a9, a10, a11⟩ := x
  simp only at h1 h2 h3 h4
  cases a9 <;>
    simp [decodePayment, encodePayment, decodeStruct, decodeMembers, matchField,
      Payment.names, Payment.setField, Payment.zero, decodeString, decodeBool, decodePtr,
      encodePtrString, decodeInt_itoa, firstError, h1, h2, h3, h4]

theorem decodeFlavor_encode (E : Env) (hf : FloatsReadBack E) (x : Flavor) (j : Json)
    (h : x.Valid) (he : encodeFlavor E x = .ok j) :
    decodeFlavor E j Flavor.zero = (x, none) := by
  obtain ⟨h1, h2, h3, h4, h5⟩ := h
  obtain ⟨a1, a2, a3, a4, a5, a6, a7, a8, a9, a10, a11⟩ := x
  simp only at h1 h2 h3 h4 h5
  unfold encodeFlavor at he
  simp only at he
  cases hl : E.formatFloat a9 with
  | none => simp [hl] at he
  | some lit =>
    simp only [hl, Except.ok.injEq] at he
    subst he
    have hp := hf a9 lit hl
    simp [decodeFlavor, decodeStruct, decodeMembers, matchField, Flavor.names, Flavor.setField,
      Flavor.zero, decodeString, decodeFloat, decodeInt_itoa, firstError, h1, h2, h3, h4, h5, hp]

theorem decodePtr_encodePtrString (E : Env) (o cur : Option String) :
    decodePtr "" (decodeString E) (encodePtrString o) cur = (o, none) := by
  cases o <;> simp [encodePtrString, decodePtr, decodeString]

theorem decodePtr_encodeFlavor (E : Env) (hf : FloatsReadBack E) (fl : Flavor) (fj : Json)
    (h : fl.Valid) (he : encodeFlavor E fl = .ok fj) :
    decodePtr Flavor.zero (decodeFlavor E) fj none = (some fl, none) := by
  have hd := decodeFlavor_encode E hf fl fj h he
  unfold encodeFlavor at he
  cases hl : E.formatFloat fl.BandwidthPerMonth with
  | none => simp [hl] at he
  | some lit =>
    simp only [hl, Except.ok.injEq] at he
    subst he
    simp only [decodePtr, Option.getD_none, hd]

set_option maxRecDepth 8000 in
theorem decodeMachine_encode (E : Env) (hf : FloatsReadBack E) (x : Machine) (j : Json)
    (h : x.Valid) (he : encodeMachine E x = .ok j) :
    decodeMachine E j Machine.zero = (x, none) := by
  obtain ⟨h1, h2, h3, h4⟩ := h
  obtain ⟨a1, a2, a3, a4, a5, a6, a7, a8, a9, a10, a11, a12, a13, a14, a15, a16, a17, a18, a19⟩
    := x
  simp only at h1 h2 h3 h4
  unfold encodeMachine at he
  simp only at he
  cases a19 with
  | none =>
    simp only [Except.ok.injEq] at he
    subst he
    simp [decodeMachine, decodeStruct, decodeMembers, matchField, Machine.names,
      Machine.setField, Machine.zero, decodeString, decodeBool, decodePtr_encodePtrString,
      decodePtr.eq_1, decodeInt_itoa, firstError, h1, h2, h3]
  | some fl =>
    simp only at he
    cases hfl : encodeFlavor E fl with
    | error e => simp [hfl] at he
    | ok fj =>
      simp only [hfl, Except.ok.injEq] at he
      subst he
      have hptr := decodePtr_encodeFlavor E hf fl fj (h4 fl rfl) hfl
      simp [decodeMachine, decodeStruct, decodeMembers, matchField, Machine.names,
        Machine.setField, Machine.zero, decodeString, decodeBool, decodePtr_encodePtrString,
        decodeInt_itoa, firstError, h1, h2, h3, hptr]

theorem decodeElems_encode (E : Env) (hf : FloatsReadBack E) (ms : List Machine)
    (js : List Json) (hv : ∀ m ∈ ms, m.Valid) (he : encodeElems E ms = .ok js) :
    decodeElems Machine.zero (decodeMachine E) js [] = (ms, none) := by
  induction ms generalizing js with
  | nil =>
    simp only [encodeElems, Except.ok.injEq] at he
    subst he
    rfl
  | cons m ms ih =>
    unfold encodeElems at he
    cases hm : encodeMachine E m with
    | error e => simp [hm] at he
    | ok j =>
      cases hms : encodeElems E ms with
      | error e => simp [hm, hms] at he
      | ok js1 =>
        simp only [hm, hms, Except.ok.injEq] at he
        subst he
        have h1 := decodeMachine_encode E hf m j (hv m (List.mem_cons_self m ms)) hm
        have h2 := ih js1 (fun x hx => hv x (List.mem_cons_of_mem m hx)) hms
        simp only [decodeElems, List.headD_nil, List.tail_nil, h1, h2, firstError]

/-- A body that encodes a value of the result type of the call decodes to that value. -/
theorem decoded_encode (E : Env) (call : Call) (b : String) (r : Result) (j : Json)
    (hr : call.Returns r) (hv : r.Valid) (hf : FloatsReadBack E)
    (he : encodeResult E r = .ok j) (hp : E.jsonParse b = .ok j) :
    call.decoded E b = (r, none) := by
  have hmach : ∀ l : Slice Machine, Result.Valid (.machines l) → encodeMachines E l = .ok j →
      decodeMachines E j none = (l, none) := by
    intro l hl hj
    cases l with
    | none =>
      simp only [encodeMachines, Except.ok.injEq] at hj
      subst hj
      rfl
    | some ms =>
      unfold encodeMachines at hj
      cases hms : encodeElems E ms with
      | error e => simp [hms] at hj
      | ok js =>
        simp only [hms, Except.ok.injEq] at hj
        subst hj
        have := decodeElems_encode E hf ms js hl hms
        simp only [decodeMachines, decodeSlice, Option.getD_none, this]
  cases r with
  | launch o =>
    cases o with
    | none => cases call <;> simp [Call.Returns] at hr
    | some x =>
      simp only [encodeResult, Except.ok.injEq] at he
      subst he
      cases call <;> (try (simp only [Call.Returns] at hr)) <;>
        simp only [Call.decoded, jsonUnmarshal, hp, decodeServerLaunchResponse_encode]
  | machines l =>
    have hl := hmach l hv he
    cases call <;> (try (simp only [Call.Returns] at hr)) <;>
        simp only [Call.decoded, jsonUnmarshal, hp, hl]
  | quote o =>
    cases o with
    | none => cases call <;> simp [Call.Returns] at hr
    | some x =>
      simp only [encodeResult, Except.ok.injEq] at he
      subst he
      cases call <;> (try (simp only [Call.Returns] at hr)) <;>
        simp only [Call.decoded, jsonUnmarshal, hp, decodeQuoteResponse_encode E x hv]
  | text t =>
    simp only [encodeResult, Except.ok.injEq] at he
    subst he
    cases call <;> (try (simp only [Call.Returns] at hr)) <;>
        simp only [Call.decoded, jsonUnmarshal, hp, decodeString]
  | tokenInfo o =>
    cases o with
    | none => cases call <;> simp [Call.Returns] at hr
    | some x =>
      simp only [encodeResult, Except.ok.injEq] at he
      subst he
      cases call <;> (try (simp only [Call.Returns] at hr)) <;>
        simp only [Call.decoded, jsonUnmarshal, hp, decodeTokenInfo_encode E x hv]
  | payment o =>
    cases o with
    | none => cases call <;> simp [Call.Returns] at hr
    | some x =>
      simp only [encodeResult, Except.ok.injEq] at he
      subst he
      cases call <;> (try (simp only [Call.Returns] at hr)) <;>
        simp only [Call.decoded, jsonUnmarshal, hp, decodePayment_encode E x hv]

/-- The float parser of `Env.plain` reads back the one literal its printer writes. -/
theorem FloatsReadBack_answering (status : Int) (body : String)
    (scan : String → Except String Json) : FloatsReadBack (Env.answering status body scan) := by
  intro f lit h
  obtain ⟨bits⟩ := f
  simp only [Env.answering, Env.plain] at h ⊢
  by_cases hb : bits = 0
  · subst hb
    simp only [if_true, Option.some.injEq] at h
    subst h
    rfl
  · simp [hb] at h

/-- C9. For every resource method, when request construction succeeds and the final response has
status 200 and a body that is the JSON encoding of a value `r` of the result type of the method
(the body scans to what `json.Marshal` gives for `r`, whose integers are Go integers), the
method returns `r` and a nil error; more generally, a body that decodes without error is
returned decoded. In particular, for every launch request and every string `s`, `Launch` on a
200 response whose body is the object with the one member `machine_id: s` returns a result whose
`MachineID` is `s`. -/
theorem run_200 (E : Env) (c : ClientCore) (call : Call) (w : World) (b : String)
    (h : FinalResponse E c call 200 b) :
    (∀ r j, call.Returns r → r.Valid → FloatsReadBack E → encodeResult E r = .ok j →
        E.jsonParse b = .ok j → (call.run E c w).1 = (r, none))
      ∧ ((call.decoded E b).2 = none → (call.run E c w).1 = ((call.decoded E b).1, none))
      ∧ (∀ reqq s, call = .Launch reqq →
          E.jsonParse b = .ok (.obj [("machine_id", .str s)]) →
          (call.run E c w).1 = (.launch (some { MachineID := s }), none)) := by
  refine ⟨?_, run_200_decoded E c call w b h, ?_⟩
  · intro r j hr hv hf he hp
    have hd := decoded_encode E call b r j hr hv hf he hp
    have := run_200_decoded E c call w b h (by rw [hd])
    rw [this, hd]
  · intro reqq s hc hp
    subst hc
    have hd : Call.decoded E (.Launch reqq) b = (.launch (some { MachineID := s }), none) := by
      simp only [Call.decoded, jsonUnmarshal, hp, decode_launch]
    have := run_200_decoded E c (.Launch reqq) w b h (by rw [hd])
    rw [this, hd]

/-- The integers of `Machine.sample` and of its flavor are Go integers. -/
theorem Machine.sample_valid : Result.Valid (.machines (some [Machine.sample])) := by
  intro m hm
  simp only [List.mem_singleton] at hm
  subst hm
  refine ⟨by decide, by decide, by decide, ?_⟩
  intro fl hfl
  cases hfl
  exact ⟨by decide, by decide, by decide, by decide, by decide⟩

set_option maxRecDepth 8000 in
/-- C9, on a mocked token information response, whose eight fields come back as they were
encoded; on a mocked list of one machine, `Machine.sample`, which comes back with its nil and
empty fields and its flavor; and on the mocked launch of the specification: flavor `vps-1`,
region `us-east`, 7 days, against a 200 response with the machine id
`abcd1234abcd1234abcd1234abcd1234`. -/
theorem run_200_witness :
    (Call.run (Env.answering 200 tokenInfoBody tokenInfoScan) ClientCore.test .TokenInfoGet
        World.empty).1 = (.tokenInfo (some TokenInfo.sample), none)
      ∧ (Call.run (Env.answering 200 machinesBody machinesScan) ClientCore.test .List
        World.empty).1 = (.machines (some [Machine.sample]), none)
      ∧ (Call.run (Env.answering 200 launchBody launchScan) ClientCore.test
        (.Launch (some { Flavor := "vps-1", SSHKey := "", OperatingSystem := "", Provider := "",
                         Autorenew := false, Days := 7, Region := "us-east", Hostname := "",
                         UserData := "" })) World.empty).1
        = (.launch (some { MachineID := "abcd1234abcd1234abcd1234abcd1234" }), none) :=
  ⟨(run_200 (Env.answering 200 tokenInfoBody tokenInfoScan) ClientCore.test .TokenInfoGet
      World.empty tokenInfoBody ⟨rfl, rfl, rfl⟩).1 (.tokenInfo (some TokenInfo.sample)) _
      trivial (by unfold Result.Valid TokenInfo.Valid; decide)
      (FloatsReadBack_answering 200 tokenInfoBody tokenInfoScan) rfl rfl,
   (run_200 (Env.answering 200 machinesBody machinesScan) ClientCore.test .List
      World.empty machinesBody ⟨rfl, rfl, rfl⟩).1 (.machines (some [Machine.sample])) _
      trivial Machine.sample_valid
      (FloatsReadBack_answering 200 machinesBody machinesScan) rfl rfl,
   (run_200 (Env.answering 200 launchBody launchScan) ClientCore.test _ World.empty launchBody
      ⟨rfl, rfl, rfl⟩).2.2 _ "abcd1234abcd1234abcd1234abcd1234" rfl rfl⟩

/-- The supporting statement for the methods other than `Quote`, on `Delete` against a 404. -/
theorem run_non200_witness :
    (Call.run (Env.answering 404 "not found" Env.plain.jsonParse) ClientCore.test (.Delete "m1")
        World.empty).1
      = (.text "", some (.errorf "error 404 not found")) :=
  (run_non200 (Env.answering 404 "not found" Env.plain.jsonParse) ClientCore.test (.Delete "m1")
    World.empty 404 "not found" (fun _ _ _ h => by cases h) ⟨rfl, rfl, rfl⟩ (by decide)).1

/-- C1 fails on `Quote`. Against a final response of status 404 and body `not found`, `Quote`
returns a quote that is not nil, with zero cents and an empty amount, and a nil error, where the
other methods return the nil result and the error `error 404 not found`. -/
theorem Quote_non200_nil_error :
    (ServerService.Quote (Env.answering 404 "not found" Env.plain.jsonParse)
        { client := ClientCore.test } "30" "vps-1" "digitalocean" World.empty).1
      = (some { Cents := 0, Usd := "" }, none) := by
  have h := Quote_response (Env.answering 404 "not found" Env.plain.jsonParse) ClientCore.test
    "30" "vps-1" "digitalocean" World.empty 404 "not found" ⟨rfl, rfl, rfl⟩
  rw [h]
  rfl

/-! ## Theorems: the nullable fields -/

theorem matchField_some (names : List String) (key f : String)
    (h : matchField names key = some f) : foldName f = foldName key := by
  unfold matchField at h
  cases h1 : names.find? (fun n => n = key) with
  | some n =>
    rw [h1] at h
    simp only [Option.some.injEq] at h
    subst h
    have := List.find?_some h1
    simp at this
    rw [this]
  | none =>
    rw [h1] at h
    simp only at h
    have := List.find?_some h
    simpa using this

theorem decodeMembers_keep {α β : Type} (p : α → β) (names : List String)
    (setField : String → Decoder α) (target : String)
    (hset : ∀ f v x, f ≠ target → p (setField f v x).1 = p x)
    (kvs : List (String × Json)) (hk : Lacks kvs target) (cur : α) :
    p (decodeMembers names setField kvs cur).1 = p cur := by
  induction kvs generalizing cur with
  | nil => rfl
  | cons kv rest ih =>
    obtain ⟨key, v⟩ := kv
    have hrest : Lacks rest target := fun kv hkv => hk kv (List.mem_cons_of_mem _ hkv)
    unfold decodeMembers
    cases hm : matchField names key with
    | none => simpa using ih hrest cur
    | some f =>
      have hf : f ≠ target := by
        intro hft
        have h1 := matchField_some names key f hm
        rw [hft] at h1
        exact hk (key, v) (List.mem_cons_self _ _) h1.symm
      simp only
      rw [ih hrest, hset f v cur hf]

theorem decodeMembers_assign {α β : Type} (p : α → β) (names : List String)
    (setField : String → Decoder α) (target : String)
    (hset : ∀ f v x, f ≠ target → p (setField f v x).1 = p x)
    (pre post : List (String × Json)) (key : String) (v : Json)
    (hm : matchField names key = some target) (hpost : Lacks post target) (cur : α) :
    p (decodeMembers names setField (pre ++ (key, v) :: post) cur).1
      = p (setField target v (decodeMembers names setField pre cur).1).1 := by
  induction pre generalizing cur with
  | nil =>
    simp only [List.nil_append]
    unfold decodeMembers
    simp only [hm]
    rw [decodeMembers_keep p names setField target hset post hpost]
  | cons kv rest ih =>
    obtain ⟨k1, v1⟩ := kv
    simp only [List.cons_append]
    unfold decodeMembers
    cases hm1 : matchField names k1 with
    | none => simpa using ih cur
    | some f => simpa using ih _

theorem Machine.setField_DeletedBy (E : Env) (f : String) (v : Json) (x : Machine)
    (h : f ≠ "deleted_by") : (Machine.setField E f v x).1.DeletedBy = x.DeletedBy := by
  simp only [Machine.setField, apply_ite Prod.fst, apply_ite Machine.DeletedBy, h, if_false, ite_self]

theorem Machine.setField_DeletedBy_self (E : Env) (v : Json) (x : Machine) :
    (Machine.setField E "deleted_by" v x).1.DeletedBy
      = (decodePtr "" (decodeString E) v x.DeletedBy).1 := by
  simp [Machine.setField]

/-- A record without the field `deleted_by` leaves `DeletedBy` as it was. -/
theorem decodeMachine_DeletedBy_absent (E : Env) (kvs : List (String × Json)) (cur : Machine)
    (h : Lacks kvs "deleted_by") : (decodeMachine E (.obj kvs) cur).1.DeletedBy = cur.DeletedBy :=
  decodeMembers_keep Machine.DeletedBy Machine.names (Machine.setField E) "deleted_by"
    (fun f v x hf => Machine.setField_DeletedBy E f v x hf) kvs h cur

/-- A record whose last member for the field `deleted_by` has the value `v` stores `v`. -/
theorem decodeMachine_DeletedBy_member (E : Env) (pre post : List (String × Json)) (v : Json)
    (cur : Machine) (h : Lacks post "deleted_by") :
    (decodeMachine E (.obj (pre ++ ("deleted_by", v) :: post)) cur).1.DeletedBy
      = (decodePtr "" (decodeString E) v
          (decodeMachine E (.obj pre) cur).1.DeletedBy).1 := by
  have := decodeMembers_assign Machine.DeletedBy Machine.names (Machine.setField E) "deleted_by"
    (fun f v x hf => Machine.setField_DeletedBy E f v x hf) pre post "deleted_by" v (by decide) h cur
  simp only [decodeMachine, decodeStruct]
  rw [this, Machine.setField_DeletedBy_self]

/-- The field `deleted_by` survives encoding and decoding. -/
theorem encodeMachine_DeletedBy (E : Env) (m : Machine) (j : Json) (h : encodeMachine E m = .ok j) :
    (decodeMachine E j Machine.zero).1.DeletedBy = m.DeletedBy := by
  unfold encodeMachine at h
  simp only at h
  split at h
  · cases h
  · rename_i fj hfj
    simp only [Except.ok.injEq] at h
    subst h
    have := decodeMachine_DeletedBy_member E
      [("machine_id", .str m.MachineID), ("created_at", .num (itoa m.CreatedAt)), ("expiration",
      .num (itoa m.Expiration)), ("token", .str m.Token), ("region", .str m.Region), ("ipv4",
      .str m.IPv4), ("ipv6", .str m.IPv6), ("deleted_at", .num (itoa m.DeletedAt))]
      [("forgotten_at", encodePtrString m.ForgottenAt), ("suspended_at", encodePtrString
      m.SuspendedAt), ("provider", .str m.Provider), ("running", .bool m.Running), ("deny_smtp",
      .bool m.DenySMTP), ("flavor_slug", .str m.FlavorSlug), ("operating_system", .str
      m.OperatingSystem), ("hostname", .str m.Hostname), ("autorenew", .bool m.Autorenew),
      ("flavor", fj)]
      (encodePtrString m.DeletedBy) Machine.zero
      (by
        intro kv hkv
        simp at hkv
        rcases hkv with h | h | h | h | h | h | h | h | h | h <;>
          (rw [h]; dsimp only; decide))
    simp only [List.cons_append, List.nil_append] at this
    rw [this]
    cases m.DeletedBy <;> rfl

theorem Machine.setField_ForgottenAt (E : Env) (f : String) (v : Json) (x : Machine)
    (h : f ≠ "forgotten_at") : (Machine.setField E f v x).1.ForgottenAt = x.ForgottenAt := by
  simp only [Machine.setField, apply_ite Prod.fst, apply_ite Machine.ForgottenAt, h, if_false, ite_self]

theorem Machine.setField_ForgottenAt_self (E : Env) (v : Json) (x : Machine) :
    (Machine.setField E "forgotten_at" v x).1.ForgottenAt
      = (decodePtr "" (decodeString E) v x.ForgottenAt).1 := by
  simp [Machine.setField]

/-- A record without the field `forgotten_at` leaves `ForgottenAt` as it was. -/
theorem decodeMachine_ForgottenAt_absent (E : Env) (kvs : List (String × Json)) (cur : Machine)
    (h : Lacks kvs "forgotten_at") : (decodeMachine E (.obj kvs) cur).1.ForgottenAt = cur.ForgottenAt :=
  decodeMembers_keep Machine.ForgottenAt Machine.names (Machine.setField E) "forgotten_at"
    (fun f v x hf => Machine.setField_ForgottenAt E f v x hf) kvs h cur

/-- A record whose last member for the field `forgotten_at` has the value `v` stores `v`. -/
theorem decodeMachine_ForgottenAt_member (E : Env) (pre post : List (String × Json)) (v : Json)
    (cur : Machine) (h : Lacks post "forgotten_at") :
    (decodeMachine E (.obj (pre ++ ("forgotten_at", v) :: post)) cur).1.ForgottenAt
      = (decodePtr "" (decodeString E) v
          (decodeMachine E (.obj pre) cur).1.ForgottenAt).1 := by
  have := decodeMembers_assign Machine.ForgottenAt Machine.names (Machine.setField E) "forgotten_at"
    (fun f v x hf => Machine.setField_ForgottenAt E f v x hf) pre post "forgotten_at" v (by decide) h cur
  simp only [decodeMachine, decodeStruct]
  rw [this, Machine.setField_ForgottenAt_self]

/-- The field `forgotten_at` survives encoding and decoding. -/
theorem encodeMachine_ForgottenAt (E : Env) (m : Machine) (j : Json) (h : encodeMachine E m = .ok j) :
    (decodeMachine E j Machine.zero).1.ForgottenAt = m.ForgottenAt := by
  unfold encodeMachine at h
  simp only at h
  split at h
  · cases h
  · rename_i fj hfj
    simp only [Except.ok.injEq] at h
    subst h
    have := decodeMachine_ForgottenAt_member E
      [("machine_id", .str m.MachineID), ("created_at", .num (itoa m.CreatedAt)), ("expiration",
      .num (itoa m.Expiration)), ("token", .str m.Token), ("region", .str m.Region), ("ipv4",
      .str m.IPv4), ("ipv6", .str m.IPv6), ("deleted_at", .num (itoa m.DeletedAt)),
      ("deleted_by", encodePtrString m.DeletedBy)]
      [("suspended_at", encodePtrString m.SuspendedAt), ("provider", .str m.Provider),
      ("running", .bool m.Running), ("deny_smtp", .bool m.DenySMTP), ("flavor_slug", .str
      m.FlavorSlug), ("operating_system", .str m.OperatingSystem), ("hostname", .str
      m.Hostname), ("autorenew", .bool m.Autorenew), ("flavor", fj)]
      (encodePtrString m.ForgottenAt) Machine.zero
      (by
        intro kv hkv
        simp at hkv
        rcases hkv with h | h | h | h | h | h | h | h | h <;>
          (rw [h]; dsimp only; decide))
    simp only [List.cons_append, List.nil_append] at this
    rw [this]
    cases m.ForgottenAt <;> rfl

theorem Machine.setField_SuspendedAt (E : Env) (f : String) (v : Json) (x : Machine)
    (h : f ≠ "suspended_at") : (Machine.setField E f v x).1.SuspendedAt = x.SuspendedAt := by
  simp only [Machine.setField, apply_ite Prod.fst, apply_ite Machine.SuspendedAt, h, if_false, ite_self]

theorem Machine.setField_SuspendedAt_self (E : Env) (v : Json) (x : Machine) :
    (Machine.setField E "suspended_at" v x).1.SuspendedAt
      = (decodePtr "" (decodeString E) v x.SuspendedAt).1 := by
  simp [Machine.setField]

/-- A record without the field `suspended_at` leaves `SuspendedAt` as it was. -/
theorem decodeMachine_SuspendedAt_absent (E : Env) (kvs : List (String × Json)) (cur : Machine)
    (h : Lacks kvs "suspended_at") : (decodeMachine E (.obj kvs) cur).1.SuspendedAt = cur.SuspendedAt :=
  decodeMembers_keep Machine.SuspendedAt Machine.names (Machine.setField E) "suspended_at"
    (fun f v x hf => Machine.setField_SuspendedAt E f v x hf) kvs h cur

/-- A record whose last member for the field `suspended_at` has the value `v` stores `v`. -/
theorem decodeMachine_SuspendedAt_member (E : Env) (pre post : List (String × Json)) (v : Json)
    (cur : Machine) (h : Lacks post "suspended_at") :
    (decodeMachine E (.obj (pre ++ ("suspended_at", v) :: post)) cur).1.SuspendedAt
      = (decodePtr "" (decodeString E) v
          (decodeMachine E (.obj pre) cur).1.SuspendedAt).1 := by
  have := decodeMembers_assign Machine.SuspendedAt Machine.names (Machine.setField E) "suspended_at"
    (fun f v x hf => Machine.setField_SuspendedAt E f v x hf) pre post "suspended_at" v (by decide) h cur
  simp only [decodeMachine, decodeStruct]
  rw [this, Machine.setField_SuspendedAt_self]

/-- The field `suspended_at` survives encoding and decoding. -/
theorem encodeMachine_SuspendedAt (E : Env) (m : Machine) (j : Json) (h : encodeMachine E m = .ok j) :
    (decodeMachine E j Machine.zero).1.SuspendedAt = m.SuspendedAt := by
  unfold encodeMachine at h
  simp only at h
  split at h
  · cases h
  · rename_i fj hfj
    simp only [Except.ok.injEq] at h
    subst h
    have := decodeMachine_SuspendedAt_member E
      [("machine_id", .str m.MachineID), ("created_at", .num (itoa m.CreatedAt)), ("expiration",
      .num (itoa m.Expiration)), ("token", .str m.Token), ("region", .str m.Region), ("ipv4",
      .str m.IPv4), ("ipv6", .str m.IPv6), ("deleted_at", .num (itoa m.DeletedAt)),
      ("deleted_by", encodePtrString m.DeletedBy), ("forgotten_at", encodePtrString
      m.ForgottenAt)]
      [("provider", .str m.Provider), ("running", .bool m.Running), ("deny_smtp", .bool
      m.DenySMTP), ("flavor_slug", .str m.FlavorSlug), ("operating_system", .str
      m.OperatingSystem), ("hostname", .str m.Hostname), ("autorenew", .bool m.Autorenew),
      ("flavor", fj)]
      (encodePtrString m.SuspendedAt) Machine.zero
      (by
        intro kv hkv
        simp at hkv
        rcases hkv with h | h | h | h | h | h | h | h <;>
          (rw [h]; dsimp only; decide))
    simp only [List.cons_append, List.nil_append] at this
    rw [this]
    cases m.SuspendedAt <;> rfl

theorem Payment.setField_AffiliateToken (E : Env) (f : String) (v : Json) (x : Payment)
    (h : f ≠ "affiliate_token") : (Payment.setField E f v x).1.AffiliateToken = x.AffiliateToken := by
  simp only [Payment.setField, apply_ite Prod.fst, apply_ite Payment.AffiliateToken, h, if_false, ite_self]

theorem Payment.setField_AffiliateToken_self (E : Env) (v : Json) (x : Payment) :
    (Payment.setField E "affiliate_token" v x).1.AffiliateToken
      = (decodePtr "" (decodeString E) v x.AffiliateToken).1 := by
  simp [Payment.setField]

/-- A record without the field `affiliate_token` leaves `AffiliateToken` as it was. -/
theorem decodePayment_AffiliateToken_absent (E : Env) (kvs : List (String × Json)) (cur : Payment)
    (h : Lacks kvs "affiliate_token") : (decodePayment E (.obj kvs) cur).1.AffiliateToken = cur.AffiliateToken :=
  decodeMembers_keep Payment.AffiliateToken Payment.names (Payment.setField E) "affiliate_token"
    (fun f v x hf => Payment.setField_AffiliateToken E f v x hf) kvs h cur

/-- A record whose last member for the field `affiliate_token` has the value `v` stores `v`. -/
theorem decodePayment_AffiliateToken_member (E : Env) (pre post : List (String × Json)) (v : Json)
    (cur : Payment) (h : Lacks post "affiliate_token") :
    (decodePayment E (.obj (pre ++ ("affiliate_token", v) :: post)) cur).1.AffiliateToken
      = (decodePtr "" (decodeString E) v
          (decodePayment E (.obj pre) cur).1.AffiliateToken).1 := by
  have := decodeMembers_assign Payment.AffiliateToken Payment.names (Payment.setField E) "affiliate_token"
    (fun f v x hf => Payment.setField_AffiliateToken E f v x hf) pre post "affiliate_token" v (by decide) h cur
  simp only [decodePayment, decodeStruct]
  rw [this, Payment.setField_AffiliateToken_self]

/-- The field `affiliate_token` survives encoding and decoding. -/
theorem encodePayment_AffiliateToken (E : Env) (m : Payment) :
    (decodePayment E (encodePayment m) Payment.zero).1.AffiliateToken = m.AffiliateToken := by
  have := decodePayment_AffiliateToken_member E
    [("payment_uri", .str m.PaymentURI), ("cryptocurrency", .str m.Cryptocurrency), ("amount",
    .num (itoa m.Amount)), ("fiat_per_coin", .str m.FiatPerCoin), ("created", .num (itoa
    m.Created)), ("expires", .num (itoa m.Expires)), ("paid", .num (itoa m.Paid)), ("txid", .str
    m.TxID)]
    [("id", .str m.ID), ("expired", .bool m.Expired)]
    (encodePtrString m.AffiliateToken) Payment.zero
    (by
      intro kv hkv
      simp at hkv
      rcases hkv with h | h <;>
        (rw [h]; dsimp only; decide))
  simp only [List.cons_append, List.nil_append] at this
  unfold encodePayment
  rw [this]
  cases m.AffiliateToken <;> rfl

/-- Encoding a `Machine` succeeds exactly when its flavor, if it has one, has a float with a
literal; a machine without a flavor is always encoded. -/
theorem encodeMachine_succeeds (E : Env) (m : Machine) :
    (∃ j, encodeMachine E m = .ok j)
      ↔ ∀ fl, m.Flavor = some fl → ∃ lit, E.formatFloat fl.BandwidthPerMonth = some lit := by
  unfold encodeMachine
  cases hfl : m.Flavor with
  | none => simp
  | some fl =>
    simp only [Option.some.injEq, forall_eq']
    unfold encodeFlavor
    cases hl : E.formatFloat fl.BandwidthPerMonth with
    | none => simp
    | some lit => simp

/-- C10. For `deleted_by`, `forgotten_at` and `suspended_at` of `Machine` and `affiliate_token`
of `Payment`, decoding into a new value: a record that has no member for the field gives nil; a
record whose last member for the field is the string `v` gives a pointer to `v`, the empty
string included, which is not nil; and encoding a value and decoding the result gives the field
back as it was, nil for nil. Encoding a `Payment` always succeeds; encoding a `Machine` succeeds
exactly when its flavor, if any, has a float with a literal, and then the three fields come back
as they were. -/
theorem nullable_fields (E : Env) :
    (∀ kvs, Lacks kvs "deleted_by" →
        (decodeMachine E (.obj kvs) Machine.zero).1.DeletedBy = none)
      ∧ (∀ kvs, Lacks kvs "forgotten_at" →
        (decodeMachine E (.obj kvs) Machine.zero).1.ForgottenAt = none)
      ∧ (∀ kvs, Lacks kvs "suspended_at" →
        (decodeMachine E (.obj kvs) Machine.zero).1.SuspendedAt = none)
      ∧ (∀ kvs, Lacks kvs "affiliate_token" →
        (decodePayment E (.obj kvs) Payment.zero).1.AffiliateToken = none)
      ∧ (∀ pre post v, Lacks post "deleted_by" →
        (decodeMachine E (.obj (pre ++ ("deleted_by", .str v) :: post)) Machine.zero).1.DeletedBy
          = some v)
      ∧ (∀ pre post v, Lacks post "forgotten_at" →
        (decodeMachine E (.obj (pre ++ ("forgotten_at", .str v) :: post))
          Machine.zero).1.ForgottenAt = some v)
      ∧ (∀ pre post v, Lacks post "suspended_at" →
        (decodeMachine E (.obj (pre ++ ("suspended_at", .str v) :: post))
          Machine.zero).1.SuspendedAt = some v)
      ∧ (∀ pre post v, Lacks post "affiliate_token" →
        (decodePayment E (.obj (pre ++ ("affiliate_token", .str v) :: post))
          Payment.zero).1.AffiliateToken = some v)
      ∧ (decodeMachine E (.obj [("deleted_by", .str "")]) Machine.zero).1.DeletedBy = some ""
      ∧ (some "" : Option String) ≠ none
      ∧ (∀ m j, encodeMachine E m = .ok j →
        (decodeMachine E j Machine.zero).1.DeletedBy = m.DeletedBy
          ∧ (decodeMachine E j Machine.zero).1.ForgottenAt = m.ForgottenAt
          ∧ (decodeMachine E j Machine.zero).1.SuspendedAt = m.SuspendedAt)
      ∧ (∀ p, (decodePayment E (encodePayment p) Payment.zero).1.AffiliateToken
          = p.AffiliateToken)
      ∧ (∀ m, (∃ j, encodeMachine E m = .ok j)
          ↔ ∀ fl, m.Flavor = some fl → ∃ lit, E.formatFloat fl.BandwidthPerMonth = some lit)
      ∧ (∀ m, (∀ fl, m.Flavor = some fl → ∃ lit, E.formatFloat fl.BandwidthPerMonth = some lit) →
          ∃ j, encodeMachine E m = .ok j
            ∧ (decodeMachine E j Machine.zero).1.DeletedBy = m.DeletedBy
            ∧ (decodeMachine E j Machine.zero).1.ForgottenAt = m.ForgottenAt
            ∧ (decodeMachine E j Machine.zero).1.SuspendedAt = m.SuspendedAt) := by
  refine ⟨?_, ?_, ?_, ?_, ?_, ?_, ?_, ?_, ?_, by simp, ?_, ?_, ?_, ?_⟩
  · intro kvs h
    exact decodeMachine_DeletedBy_absent E kvs Machine.zero h
  · intro kvs h
    exact decodeMachine_ForgottenAt_absent E kvs Machine.zero h
  · intro kvs h
    exact decodeMachine_SuspendedAt_absent E kvs Machine.zero h
  · intro kvs h
    exact decodePayment_AffiliateToken_absent E kvs Payment.zero h
  · intro pre post v h
    rw [decodeMachine_DeletedBy_member E pre post (.str v) Machine.zero h]
    rfl
  · intro pre post v h
    rw [decodeMachine_ForgottenAt_member E pre post (.str v) Machine.zero h]
    rfl
  · intro pre post v h
    rw [decodeMachine_SuspendedAt_member E pre post (.str v) Machine.zero h]
    rfl
  · intro pre post v h
    rw [decodePayment_AffiliateToken_member E pre post (.str v) Payment.zero h]
    rfl
  · have := decodeMachine_DeletedBy_member E [] [] (.str "") Machine.zero
      (fun kv hkv => by cases hkv)
    simp only [List.nil_append] at this
    rw [this]
    rfl
  · intro m j h
    exact ⟨encodeMachine_DeletedBy E m j h, encodeMachine_ForgottenAt E m j h,
      encodeMachine_SuspendedAt E m j h⟩
  · intro p
    exact encodePayment_AffiliateToken E p
  · intro m
    exact encodeMachine_succeeds E m
  · intro m hm
    obtain ⟨j, hj⟩ := (encodeMachine_succeeds E m).2 hm
    exact ⟨j, hj, encodeMachine_DeletedBy E m j hj, encodeMachine_ForgottenAt E m j hj,
      encodeMachine_SuspendedAt E m j hj⟩

set_option maxRecDepth 8000 in
/-- C10, on the record of the specification: `deleted_by` is `user-42`, `forgotten_at` is
`2024-01-05T00:00:00Z`, and `suspended_at` is absent; and on a round trip: `Machine.sample`,
deleted by `user-42`, never forgotten, with an empty suspension time and a flavor, is encoded as
`Machine.sampleJson`, where `forgotten_at` is `null`, and decoding that gives the three fields
back, nil for nil and the empty string for the empty string. -/
theorem nullable_fields_witness :
    (decodeMachine Env.plain
        (.obj ([("machine_id", .str "m1")] ++ ("deleted_by", .str "user-42")
          :: [("forgotten_at", .str "2024-01-05T00:00:00Z")])) Machine.zero).1.DeletedBy
        = some "user-42"
      ∧ (decodeMachine Env.plain
        (.obj ([("machine_id", .str "m1"), ("deleted_by", .str "user-42")]
          ++ ("forgotten_at", .str "2024-01-05T00:00:00Z") :: [])) Machine.zero).1.ForgottenAt
        = some "2024-01-05T00:00:00Z"
      ∧ (decodeMachine Env.plain
        (.obj [("machine_id", .str "m1"), ("deleted_by", .str "user-42"),
          ("forgotten_at", .str "2024-01-05T00:00:00Z")]) Machine.zero).1.SuspendedAt = none
      ∧ ((decodeMachine Env.plain Machine.sampleJson Machine.zero).1.DeletedBy = some "user-42"
        ∧ (decodeMachine Env.plain Machine.sampleJson Machine.zero).1.ForgottenAt = none
        ∧ (decodeMachine Env.plain Machine.sampleJson Machine.zero).1.SuspendedAt = some "")
      ∧ (∃ j, encodeMachine Env.plain Machine.sample = .ok j
        ∧ (decodeMachine Env.plain j Machine.zero).1.DeletedBy = some "user-42"
        ∧ (decodeMachine Env.plain j Machine.zero).1.ForgottenAt = none
        ∧ (decodeMachine Env.plain j Machine.zero).1.SuspendedAt = some "") :=
  ⟨(nullable_fields Env.plain).2.2.2.2.1 [("machine_id", .str "m1")]
      [("forgotten_at", .str "2024-01-05T00:00:00Z")] "user-42" (by unfold Lacks; decide),
   (nullable_fields Env.plain).2.2.2.2.2.1
      [("machine_id", .str "m1"), ("deleted_by", .str "user-42")] []
      "2024-01-05T00:00:00Z" (by unfold Lacks; decide),
   (nullable_fields Env.plain).2.2.1 _ (by unfold Lacks; decide),
   (nullable_fields Env.plain).2.2.2.2.2.2.2.2.2.2.1 Machine.sample Machine.sampleJson rfl,
   (nullable_fields Env.plain).2.2.2.2.2.2.2.2.2.2.2.2.2 Machine.sample
      (fun fl hfl => ⟨"0", by cases hfl; rfl⟩)⟩

/-! ## Theorems: the errors of the decoders -/

theorem decodeBool_jsonErrors (E : Env) : (decodeBool E).JsonErrors := by
  intro v cur err h
  cases v <;> simp [decodeBool, typeError] at h <;> exact ⟨_, h.symm⟩

theorem decodeInt_jsonErrors (E : Env) (goType : String) : (decodeInt E goType).JsonErrors := by
  intro v cur err h
  cases v with
  | num lit =>
    simp only [decodeInt] at h
    cases hp : ParseInt lit with
    | some n => simp [hp] at h
    | none =>
      simp [hp, typeError] at h
      exact ⟨_, h.symm⟩
  | _ => simp [decodeInt, typeError] at h <;> exact ⟨_, h.symm⟩

theorem decodeFloat_jsonErrors (E : Env) : (decodeFloat E).JsonErrors := by
  intro v cur err h
  cases v with
  | num lit =>
    simp only [decodeFloat] at h
    cases hp : E.parseFloat lit with
    | some n => simp [hp] at h
    | none =>
      simp [hp, typeError] at h
      exact ⟨_, h.symm⟩
  | _ => simp [decodeFloat, typeError] at h <;> exact ⟨_, h.symm⟩

theorem decodePtr_jsonErrors {α : Type} (zero : α) (dec : Decoder α) (hd : dec.JsonErrors) :
    (decodePtr zero dec).JsonErrors := by
  intro v cur err h
  cases v with
  | null => simp [decodePtr] at h
  | _ => exact hd _ _ err (by simpa [decodePtr] using h)

theorem firstError_json (e1 e2 : Option GoError) (err : GoError)
    (h1 : ∀ e, e1 = some e → ∃ t, e = .json t) (h2 : ∀ e, e2 = some e → ∃ t, e = .json t)
    (h : firstError e1 e2 = some err) : ∃ t, err = .json t := by
  cases e1 with
  | some e => exact h1 err (by simpa [firstError] using h)
  | none => exact h2 err (by simpa [firstError] using h)

theorem decodeElems_jsonErrors {α : Type} (zero : α) (dec : Decoder α) (hd : dec.JsonErrors)
    (xs : List Json) (cur : List α) (err : GoError)
    (h : (decodeElems zero dec xs cur).2 = some err) : ∃ t, err = .json t := by
  induction xs generalizing cur err with
  | nil => simp [decodeElems] at h
  | cons x xs ih =>
    simp only [decodeElems] at h
    exact firstError_json _ _ err (fun e he => hd _ _ e he) (fun e he => ih _ e he) h

theorem decodeSlice_jsonErrors {α : Type} (E : Env) (goType : String) (zero : α)
    (dec : Decoder α) (hd : dec.JsonErrors) : (decodeSlice E goType zero dec).JsonErrors := by
  intro v cur err h
  cases v with
  | null => simp [decodeSlice] at h
  | arr xs => exact decodeElems_jsonErrors zero dec hd xs _ err (by simpa [decodeSlice] using h)
  | _ => all_goals (simp [decodeSlice, typeError] at h; exact ⟨_, h.symm⟩)

theorem decodeMembers_jsonErrors {α : Type} (names : List String)
    (setField : String → Decoder α) (hs : ∀ f, (setField f).JsonErrors)
    (kvs : List (String × Json)) (cur : α) (err : GoError)
    (h : (decodeMembers names setField kvs cur).2 = some err) : ∃ t, err = .json t := by
  induction kvs generalizing cur err with
  | nil => simp [decodeMembers] at h
  | cons kv rest ih =>
    obtain ⟨key, v⟩ := kv
    unfold decodeMembers at h
    cases hm : matchField names key with
    | none =>
      rw [hm] at h
      exact ih cur err h
    | some f =>
      rw [hm] at h
      simp only at h
      exact firstError_json _ _ err (fun e he => hs f _ _ e he) (fun e he => ih _ e he) h

theorem decodeStruct_jsonErrors {α : Type} (E : Env) (goType : String) (names : List String)
    (setField : String → Decoder α) (hs : ∀ f, (setField f).JsonErrors) :
    (decodeStruct E goType names setField).JsonErrors := by
  intro v cur err h
  cases v with
  | null => simp [decodeStruct] at h
  | obj kvs =>
    exact decodeMembers_jsonErrors names setField hs kvs cur err (by simpa [decodeStruct] using h)
  | _ => all_goals (simp [decodeStruct, typeError] at h; exact ⟨_, h.symm⟩)

theorem ite_snd_json {α : Type} (c : Prop) [Decidable c] (a b : α × Option GoError)
    (err : GoError) (ha : a.2 = some err → ∃ t, err = .json t)
    (hb : b.2 = some err → ∃ t, err = .json t) :
    (if c then a else b).2 = some err → ∃ t, err = .json t := by
  split
  · exact ha
  · exact hb

theorem ServerLaunchResponse_setField_jsonErrors (E : Env) (f : String) :
    (ServerLaunchResponse.setField E f).JsonErrors := by
  intro v cur err
  unfold ServerLaunchResponse.setField
  repeat
    (refine ite_snd_json _ _ _ _ ?_ ?_
     · first
       | exact decodeString_jsonErrors E _ _ _)
  intro h
  cases h

theorem QuoteResponse_setField_jsonErrors (E : Env) (f : String) :
    (QuoteResponse.setField E f).JsonErrors := by
  intro v cur err
  unfold QuoteResponse.setField
  repeat
    (refine ite_snd_json _ _ _ _ ?_ ?_
     · first
       | exact decodeString_jsonErrors E _ _ _
       | exact decodeInt_jsonErrors E _ _ _ _)
  intro h
  cases h

theorem TokenInfo_setField_jsonErrors (E : Env) (f : String) :
    (TokenInfo.setField E f).JsonErrors := by
  intro v cur err
  unfold TokenInfo.setField
  repeat
    (refine ite_snd_json _ _ _ _ ?_ ?_
     · first
       | exact decodeString_jsonErrors E _ _ _
       | exact decodeInt_jsonErrors E _ _ _ _)
  intro h
  cases h

theorem Payment_setField_jsonErrors (E : Env) (f : String) :
    (Payment.setField E f).JsonErrors := by
  intro v cur err
  unfold Payment.setField
  repeat
    (refine ite_snd_json _ _ _ _ ?_ ?_
     · first
       | exact decodeString_jsonErrors E _ _ _
       | exact decodeInt_jsonErrors E _ _ _ _
       | exact decodeBool_jsonErrors E _ _ _
       | exact decodePtr_jsonErrors _ _ (decodeString_jsonErrors E) _ _ _)
  intro h
  cases h

theorem Flavor_setField_jsonErrors (E : Env) (f : String) :
    (Flavor.setField E f).JsonErrors := by
  intro v cur err
  unfold Flavor.setField
  repeat
    (refine ite_snd_json _ _ _ _ ?_ ?_
     · first
       | exact decodeString_jsonErrors E _ _ _
       | exact decodeInt_jsonErrors E _ _ _ _
       | exact decodeFloat_jsonErrors E _ _ _)
  intro h
  cases h

theorem decodeFlavor_jsonErrors (E : Env) : (decodeFlavor E).JsonErrors :=
  decodeStruct_jsonErrors E _ _ _ (Flavor_setField_jsonErrors E)

theorem Machine_setField_jsonErrors (E : Env) (f : String) :
    (Machine.setField E f).JsonErrors := by
  intro v cur err
  unfold Machine.setField
  repeat
    (refine ite_snd_json _ _ _ _ ?_ ?_
     · first
       | exact decodeString_jsonErrors E _ _ _
       | exact decodeInt_jsonErrors E _ _ _ _
       | exact decodeBool_jsonErrors E _ _ _
       | exact decodePtr_jsonErrors _ _ (decodeString_jsonErrors E) _ _ _
       | exact decodePtr_jsonErrors _ _ (decodeFlavor_jsonErrors E) _ _ _)
  intro h
  cases h

/-- Every destination the resource methods decode into has only errors of `encoding/json`. -/
theorem destinations_jsonErrors (E : Env) :
    (decodeServerLaunchResponse E).JsonErrors ∧ (decodeMachines E).JsonErrors
      ∧ (decodeQuoteResponse E).JsonErrors ∧ (decodeString E).JsonErrors
      ∧ (decodeTokenInfo E).JsonErrors ∧ (decodePayment E).JsonErrors :=
  ⟨decodeStruct_jsonErrors E _ _ _ (ServerLaunchResponse_setField_jsonErrors E),
   decodeSlice_jsonErrors E _ _ _
     (decodeStruct_jsonErrors E _ _ _ (Machine_setField_jsonErrors E)),
   decodeStruct_jsonErrors E _ _ _ (QuoteResponse_setField_jsonErrors E),
   decodeString_jsonErrors E,
   decodeStruct_jsonErrors E _ _ _ (TokenInfo_setField_jsonErrors E),
   decodeStruct_jsonErrors E _ _ _ (Payment_setField_jsonErrors E)⟩

end Gosporestack
